import Mathlib

/-!
Verification development for the dual-backend YouTube playlist adapter
(`src/lib/youtube.ts` of the playlist batch-deleter repository).

Modelling conventions:
* JavaScript strings are sequences of code points, embedded as `JSStr := List Nat`
  (`jstr` converts a Lean string literal).  Case mappings (`String.prototype
  .toLowerCase` / `toUpperCase`) are modelled on the Basic Latin range, which is
  the alphabet of HTTP header names and of all string literals the adapter
  manipulates.
* JavaScript regex `\s` (and `trim`) whitespace is the ECMAScript WhiteSpace /
  LineTerminator set, modelled by `isJsWs` over code points.
* JSON documents are embedded as the inductive `Json` tree; `undefined` results
  of optional chaining are `Option` at the use sites.
* Fallible code returns `Except`; network interaction is an oracle function
  passed as a parameter, and each performed request is recorded in a trace so
  that retry/fallback behaviour is observable.
-/

instance instDecEqExcept {ε α : Type} [DecidableEq ε] [DecidableEq α] :
    DecidableEq (Except ε α)
  | .ok a, .ok b =>
    if h : a = b then .isTrue (by rw [h])
    else .isFalse (by intro hc; cases hc; exact h rfl)
  | .error a, .error b =>
    if h : a = b then .isTrue (by rw [h])
    else .isFalse (by intro hc; cases hc; exact h rfl)
  | .ok _, .error _ => .isFalse (by intro h; cases h)
  | .error _, .ok _ => .isFalse (by intro h; cases h)

/-- JavaScript string: a sequence of code points. -/
abbrev JSStr := List Nat

/-- Embed a Lean string literal as a `JSStr`. -/
def jstr (s : String) : JSStr := s.data.map Char.toNat

/-- ECMAScript whitespace (WhiteSpace + LineTerminator), as used by `trim`
and by the regex class `\s`. -/
def isJsWs (c : Nat) : Bool :=
  c == 9 || c == 10 || c == 11 || c == 12 || c == 13 || c == 32 ||
  c == 160 || c == 5760 || (8192 ≤ c && c ≤ 8202) || c == 8232 ||
  c == 8233 || c == 8239 || c == 8287 || c == 12288 || c == 65279

/-- `String.prototype.toLowerCase` on one code point, modelled on the Basic
Latin range; code points outside it are left fixed (the full Unicode simple
and special mappings are beyond this model, so every theorem that depends on
lowercasing either stays within this range or uses only code points the
model maps as JavaScript does — e.g. `ß`, a fixed point of `toLowerCase`). -/
def lowerN (c : Nat) : Nat := if 65 ≤ c ∧ c ≤ 90 then c + 32 else c

/-- The Basic Latin part of the single-code-point uppercase mapping. -/
def upperN (c : Nat) : Nat := if 97 ≤ c ∧ c ≤ 122 then c - 32 else c

/-- `String.prototype.toUpperCase` of a one-character string: uppercasing
may expand (special casing), so the result is a string.  Modelled on the
Basic Latin range plus `ß → "SS"` (U+00DF, the special case exercised
below); other code points outside the modelled range are left fixed. -/
def upperChar (c : Nat) : List Nat :=
  if c = 223 then [83, 83] else [upperN c]

/-- `String.prototype.trim`: drop leading and trailing JS whitespace. -/
def trimL (s : JSStr) : JSStr :=
  (s.dropWhile isJsWs).rdropWhile isJsWs

/-- `split("-")`: split a string at every `-` (code point 45).  As in
JavaScript, the result is never empty and empty segments are kept. -/
def splitDash : JSStr → List JSStr
  | [] => [[]]
  | c :: cs =>
    if c = 45 then [] :: splitDash cs
    else
      match splitDash cs with
      | [] => [[c]]
      | s :: rest => (c :: s) :: rest

/-- `join("-")`: interleave `-` (code point 45) between the segments. -/
def joinDash : List JSStr → JSStr
  | [] => []
  | [s] => s
  | s :: rest => s ++ 45 :: joinDash rest

/-- `segment.charAt(0).toUpperCase() + segment.slice(1)`. -/
def capFirst : JSStr → JSStr
  | [] => []
  | c :: cs => upperChar c ++ cs

/-- `normalizeHeaderName` from the source: trim, lowercase, split on `-`,
capitalize the first character of each segment, rejoin with `-`. -/
def normalizeHeaderName (s : JSStr) : JSStr :=
  joinDash (((trimL s).map lowerN |> splitDash).map capFirst)

/-! ## Header maps and the request preparer -/

/-- A JavaScript object used as a header map, modelled as an association list
with JS object-literal semantics: assigning an existing key updates its value
in place, a new key is appended (insertion order is preserved). -/
abbrev HeaderMap := List (JSStr × JSStr)

/-- JS object property assignment `m[k] = v`. -/
def objSet (m : HeaderMap) (k v : JSStr) : HeaderMap :=
  if m.any (fun e => e.1 == k) then
    m.map (fun e => if e.1 == k then (k, v) else e)
  else m ++ [(k, v)]

/-- JS object property lookup `m[k]` (`none` models `undefined`). -/
def getVal (m : HeaderMap) (k : JSStr) : Option JSStr :=
  (m.find? (fun e => e.1 == k)).map (·.2)

def DEFAULT_ORIGIN : JSStr := jstr "https://www.youtube.com"

def DEFAULT_CLIENT_VERSION : JSStr := jstr "2.20251030.01.00"

def DEFAULT_CLIENT_NAME_CODE : JSStr := jstr "1"

def DEFAULT_HEADERS : HeaderMap :=
  [(jstr "Accept", jstr "application/json"),
   (jstr "Content-Type", jstr "application/json"),
   (jstr "X-Goog-AuthUser", jstr "0"),
   (jstr "X-Origin", DEFAULT_ORIGIN),
   (jstr "Origin", DEFAULT_ORIGIN),
   (jstr "X-Youtube-Client-Name", DEFAULT_CLIENT_NAME_CODE),
   (jstr "X-Youtube-Client-Version", DEFAULT_CLIENT_VERSION)]

def PROXY_HEADER_MAP : HeaderMap :=
  [(jstr "Cookie", jstr "X-YouTube-Proxy-Cookie"),
   (jstr "Origin", jstr "X-YouTube-Proxy-Origin"),
   (jstr "Referer", jstr "X-YouTube-Proxy-Referer"),
   (jstr "User-Agent", jstr "X-YouTube-Proxy-User-Agent"),
   (jstr "Accept-Language", jstr "X-YouTube-Proxy-Accept-Language")]

def FORBIDDEN_HEADER_PREFIXES : List JSStr := [jstr "Sec-", jstr "Proxy-"]

def FORBIDDEN_HEADER_NAMES : List JSStr :=
  [jstr "Accept-Charset", jstr "Accept-Encoding",
   jstr "Access-Control-Request-Headers", jstr "Access-Control-Request-Method",
   jstr "Connection", jstr "Content-Length", jstr "Cookie", jstr "Cookie2",
   jstr "Date", jstr "DNT", jstr "Expect", jstr "Host", jstr "Keep-Alive",
   jstr "Origin", jstr "Referer", jstr "TE", jstr "Trailer",
   jstr "Transfer-Encoding", jstr "Upgrade", jstr "Via"]

/-- `isForbiddenHeaderName` from the source: exact membership in
`FORBIDDEN_HEADER_NAMES`, or one of the two reserved prefixes. -/
def isForbiddenHeaderName (n : JSStr) : Bool :=
  FORBIDDEN_HEADER_NAMES.any (fun f => f == n) ||
  FORBIDDEN_HEADER_PREFIXES.any (fun p => p.isPrefixOf n)

/-- `normalizeHeaderKeys`: rebuild the object with canonicalized keys
(last write wins on collision, as in the source's `result[normalize(key)] = value`). -/
def normalizeHeaderKeys (h : HeaderMap) : HeaderMap :=
  h.foldl (fun m e => objSet m (normalizeHeaderName e.1) e.2) []

/-- The object spread `{ ...DEFAULT_HEADERS, ...normalizeHeaderKeys(raw) }`. -/
def mergeNormalized (raw : HeaderMap) : HeaderMap :=
  (normalizeHeaderKeys raw).foldl (fun m e => objSet m e.1 e.2) DEFAULT_HEADERS

/-- `!value?.trim()`: the value is empty or whitespace-only. -/
def isBlank (v : JSStr) : Bool := trimL v == []

/-- `Headers.prototype.set`: header names are case-insensitive; the fetch
`Headers` object stores them lowercased. -/
def hSet (hs : HeaderMap) (name v : JSStr) : HeaderMap :=
  let ln := name.map lowerN
  if hs.any (fun e => e.1 == ln) then
    hs.map (fun e => if e.1 == ln then (ln, v) else e)
  else hs ++ [(ln, v)]

/-- `Headers.prototype.get` (case-insensitive lookup). -/
def hGet (hs : HeaderMap) (name : JSStr) : Option JSStr :=
  (hs.find? (fun e => e.1 == name.map lowerN)).map (·.2)

structure PreparedHeaders where
  headers : HeaderMap
  normalized : HeaderMap
deriving DecidableEq, Repr

/-- One iteration of the `Headers`-building loop of `prepareHeaders`: skip a
blank value, re-route the five restricted names to their proxy carrier names,
drop forbidden names, trim the emitted value. -/
def buildStep (hs : HeaderMap) (e : JSStr × JSStr) : HeaderMap :=
  if isBlank e.2 then hs
  else
    match getVal PROXY_HEADER_MAP e.1 with
    | some carrier => hSet hs carrier (trimL e.2)
    | none =>
      if isForbiddenHeaderName e.1 then hs
      else hSet hs e.1 (trimL e.2)

/-- The `Headers`-building loop of `prepareHeaders`. -/
def buildHeaders (normalized : HeaderMap) : HeaderMap :=
  normalized.foldl buildStep []

/-- `prepareHeaders` from the source: merge defaults with the normalized raw
headers, fail when Authorization is missing or blank, build the outgoing
`Headers`. -/
def prepareHeaders (raw : HeaderMap) : Except JSStr PreparedHeaders :=
  let normalized := mergeNormalized raw
  match getVal normalized (jstr "Authorization") with
  | none => .error (jstr "Authorization header is required.")
  | some v =>
    if isBlank v then .error (jstr "Authorization header is required.")
    else .ok ⟨buildHeaders normalized, normalized⟩

/-- `/^Bearer\s+/i` from `shouldUseInnerTube`. -/
def bearerPrefixTest (s : JSStr) : Bool :=
  let t := s.map lowerN
  (jstr "bearer").isPrefixOf t &&
    (match t.drop 6 with
     | c :: _ => isJsWs c
     | [] => false)

/-- Substring containment (regex `test` without anchors). -/
def containsSub (needle hay : JSStr) : Bool :=
  hay.tails.any (fun t => needle.isPrefixOf t)

/-- `/SAPISID/i` from `shouldUseInnerTube`. -/
def sapisidTest (s : JSStr) : Bool := containsSub (jstr "sapisid") (s.map lowerN)

/-- `shouldUseInnerTube` from the source: official wins on a `Bearer` prefix,
otherwise internal iff the value contains `SAPISID` case-insensitively. -/
def shouldUseInnerTube (headers : HeaderMap) : Bool :=
  let auth := (getVal headers (jstr "Authorization")).getD []
  if bearerPrefixTest auth then false else sapisidTest auth

inductive Backend where
  | official
  | internal
deriving DecidableEq, Repr

/-- The backend-selection step of the façade (`fetchAllPlaylists` /
`deletePlaylist`): prepare the headers, then branch on `shouldUseInnerTube`. -/
def selectBackend (raw : HeaderMap) : Except JSStr Backend :=
  (prepareHeaders raw).map fun p =>
    if shouldUseInnerTube p.normalized then .internal else .official

/-- Modelled from the spec: the official-backend Authorization shape
`^Bearer\s+\S` (literal `Bearer`, whitespace, then a non-whitespace char). -/
def specOfficialShape (s : JSStr) : Bool :=
  (jstr "Bearer").isPrefixOf s &&
    (match s.drop 6 with
     | c :: _ => isJsWs c
     | [] => false) &&
    !((s.drop 6).dropWhile isJsWs).isEmpty

/-- Modelled from the spec: the internal session-hash shape — a
case-insensitive `SAPISIDHASH` keyword followed by whitespace and a
non-empty value. -/
def specInternalShape (s : JSStr) : Bool :=
  let t := s.map lowerN
  t.tails.any fun tail =>
    (jstr "sapisidhash").isPrefixOf tail &&
      (match tail.drop 11 with
       | c :: _ => isJsWs c
       | [] => false) &&
      !((tail.drop 11).dropWhile isJsWs).isEmpty

/-! ## JSON documents, text extraction, and the playlist entity -/

/-- A JSON document (the internal API's response shape), as a tree.  Numbers
are modelled as integers: the adapter only ever reads integral counts.
`undefined` (absent property / failed optional chain) is `Option.none` at the
use sites, distinct from the JSON value `null`. -/
inductive Json where
  | obj (fields : List (String × Json))
  | arr (elems : List Json)
  | str (s : JSStr)
  | num (n : Int)
  | bool (b : Bool)
  | null

/-- Property access `j.k` on a JSON value (`none` = `undefined`). -/
def getField (j : Json) (k : String) : Option Json :=
  match j with
  | .obj fs => (fs.find? (fun f => f.1 == k)).map (·.2)
  | _ => none

/-- Optional chaining `o?.k`. -/
def oField (o : Option Json) (k : String) : Option Json :=
  match o with
  | none => none
  | some .null => none
  | some v => getField v k

/-- Index access `o?.[i]`. -/
def oIndex (o : Option Json) (i : Nat) : Option Json :=
  match o with
  | some (.arr es) => es.get? i
  | _ => none

/-- A JavaScript nullish value (`null` or `undefined`). -/
def nullish : Option Json → Bool
  | none => true
  | some .null => true
  | _ => false

/-- Nullish coalescing `a ?? b`. -/
def coalesce (a b : Option Json) : Option Json :=
  if nullish a then b else a

/-- JavaScript truthiness of a JSON value. -/
def jsTruthy : Json → Bool
  | .null => false
  | .bool b => b
  | .num n => n != 0
  | .str s => !s.isEmpty
  | .obj _ => true
  | .arr _ => true

/-- Truthiness of a possibly-`undefined` value. -/
def optTruthy : Option Json → Bool
  | none => false
  | some v => jsTruthy v

mutual

/-- JavaScript `String(v)` / `v.toString()`. -/
def jsToString : Json → JSStr
  | .str s => s
  | .num n => jstr (toString n)
  | .bool true => jstr "true"
  | .bool false => jstr "false"
  | .null => jstr "null"
  | .obj _ => jstr "[object Object]"
  | .arr es => jsToStringElems es

/-- `Array.prototype.toString` = `join(",")`, with `null` elements printed
as the empty string. -/
def jsToStringElems : List Json → JSStr
  | [] => []
  | e :: rest =>
    (match e with
     | .null => []
     | v => jsToString v) ++
    (match rest with
     | [] => []
     | _ => 44 :: jsToStringElems rest)

end

/-- `getText` from the source: accept a plain string, a `{simpleText}` or
`{content}` wrapper, or a `{runs:[{text}]}` array joined without separators;
falsy input gives `undefined`. -/
def getText : Option Json → Option JSStr
  | none => none
  | some v =>
    if ¬ jsTruthy v then none
    else
      match v with
      | .str s => some s
      | _ =>
        match getField v "simpleText" with
        | some (.str s) => some s
        | _ =>
          match getField v "content" with
          | some (.str s) => some s
          | _ =>
            match getField v "runs" with
            | some (.arr rs) =>
              some ((rs.map (fun r =>
                match getField r "text" with
                | none => []
                | some .null => []
                | some x => jsToString x)).flatten)
            | _ => none

/-- `extractPlaylistId` from the source: a direct `playlistId`/`contentId`
string first, then the three navigation locations; only non-empty strings
count. -/
def extractPlaylistId (r : Json) : Option JSStr :=
  match coalesce (getField r "playlistId") (getField r "contentId") with
  | some (.str (c :: cs)) => some (c :: cs)
  | _ =>
    match
      coalesce (oField (oField (getField r "navigationEndpoint") "watchEndpoint") "playlistId")
        (coalesce (oField (oField (getField r "onTap") "watchEndpoint") "playlistId")
          (oField (getField r "trackingParams") "playlistId")) with
    | some (.str (c :: cs)) => some (c :: cs)
    | _ => none

/-- The uniform `Playlist` output entity. -/
structure Playlist where
  id : JSStr
  title : JSStr
  description : JSStr
  privacyStatus : JSStr
  itemCount : Int
  channelTitle : JSStr
  updatedAt : JSStr
  thumbnailUrl : Option JSStr
deriving DecidableEq, Repr

/-- `replace(/[^\d]/g, "")`. -/
def stripNonDigits (s : JSStr) : JSStr := s.filter (fun c => 48 ≤ c && c ≤ 57)

/-- `parseInt(s, 10)` restricted to the digit-only strings produced by
`stripNonDigits` (`none` = `NaN`). -/
def parseIntDec (s : JSStr) : Option Int :=
  let ds := s.takeWhile (fun c => 48 ≤ c && c ≤ 57)
  if ds.isEmpty then none
  else some (Int.ofNat (ds.foldl (fun acc c => acc * 10 + (c - 48)) 0))

/-- The lockup gate shared by the extractor and the converter:
`r.lockupViewModel && (r.contentType?.toString().includes("PLAYLIST") ||
r.lockupViewModel?.metadata?.lockupMetadataViewModel)`. -/
def lockupGate (r : Json) : Bool :=
  optTruthy (getField r "lockupViewModel") &&
    ((match getField r "contentType" with
      | none => false
      | some .null => false
      | some v => containsSub (jstr "PLAYLIST") (jsToString v)) ||
     optTruthy (oField (oField (getField r "lockupViewModel") "metadata")
        "lockupMetadataViewModel"))

/-- `join(" ")`. -/
def joinWithSpace : List JSStr → JSStr
  | [] => []
  | [s] => s
  | s :: rest => s ++ 32 :: joinWithSpace rest

/-- Regex-`i`-flag canonicalization for the character set appearing in the
lockup metadata patterns (ASCII letters plus `Ö`). -/
def lowerMatch (c : Nat) : Nat :=
  if 65 ≤ c ∧ c ≤ 90 then c + 32 else if c = 214 then 246 else c

/-- Regex word character `\w` = `[A-Za-z0-9_]`. -/
def isWordChar (c : Nat) : Bool :=
  (48 ≤ c && c ≤ 57) || (65 ≤ c && c ≤ 90) || (97 ≤ c && c ≤ 122) || c == 95

/-- A `\b` boundary between an optional previous character and a next one. -/
def wordBoundary (prev : Option Nat) (next : Option Nat) : Bool :=
  (match prev with | none => false | some p => isWordChar p) !=
  (match next with | none => false | some n => isWordChar n)

/-- `/\bpat\b/i.test(row)` for a fixed lowercase pattern `pat`. -/
def hasWordBounded (pat : JSStr) (row : JSStr) : Bool :=
  let t := row.map lowerMatch
  let ok := fun (prev : Option Nat) (s : JSStr) =>
    pat.isPrefixOf s &&
    wordBoundary prev s.head? &&
    wordBoundary ((s.take pat.length).getLast?) ((s.drop pat.length).head?)
  let rec go (prev : Option Nat) : JSStr → Bool
    | [] => false
    | c :: cs => ok prev (c :: cs) || go (some c) cs
  go none t

/-- `/pat/i.test(row)` (plain substring) for a fixed lowercase pattern. -/
def containsCI (pat : JSStr) (row : JSStr) : Bool :=
  containsSub pat (row.map lowerMatch)

/-- The privacy-row gate
`/\b(private|privat|public|öffentlich|unlisted|nicht gelistet)\b/i`. -/
def privacyRowTest (row : JSStr) : Bool :=
  [jstr "private", jstr "privat", jstr "public", jstr "öffentlich",
   jstr "unlisted", jstr "nicht gelistet"].any (fun pat => hasWordBounded pat row)

/-- Read a JSON value as the string it would be assigned as (strings kept,
other non-nullish values via their string form). -/
def jsonAsStr : Json → JSStr
  | .str s => s
  | v => jsToString v

/-- `list[list.length-1]?.url ?? list[0]?.url` (thumbnail preference). -/
def lastOrFirstUrl (ts : List Json) : Option JSStr :=
  if ts.isEmpty then none
  else
    match coalesce ((ts.getLast?).bind (fun t => getField t "url"))
        ((ts.head?).bind (fun t => getField t "url")) with
    | some .null => none
    | none => none
    | some v => some (jsonAsStr v)

/-- `badgeText ? parseInt(badgeText.replace(/[^\d]/g, ""), 10) : undefined`
(`none` = `undefined`/`NaN`). -/
def badgeCount (bt : Option JSStr) : Option Int :=
  match bt with
  | some b => if b.isEmpty then none else parseIntDec (stripNonDigits b)
  | none => none

/-- `typeof r.videoCount === "number" ? r.videoCount :
parseInt(String(countText).replace(/[^\d]/g, ""), 10)` (`none` = `NaN`). -/
def legacyItemCount (r : Json) (countText : Json) : Option Int :=
  match getField r "videoCount" with
  | some (.num n) => some n
  | _ => parseIntDec (stripNonDigits (jsToString countText))

/-- The errors a call can surface: a `YouTubeApiError` with its HTTP status,
an abort, a `TypeError` (calling `.map` on a non-array), or any other thrown
error. -/
inductive JsError where
  | api (status : Nat)
  | abort
  | typeError
  | generic
deriving DecidableEq, Repr

/-- `(x ?? []).map(...)`: nullish becomes the empty array, an array is used
as is, and any other value throws a `TypeError` (only arrays have `.map`). -/
def jsArray? (v : Option Json) : Except JsError (List Json) :=
  match v with
  | none => .ok []
  | some .null => .ok []
  | some (.arr es) => .ok es
  | some _ => .error .typeError

/-- A value on which `(x ?? []).map(...)` throws: non-nullish and not an
array. -/
def badArrayVal (v : Option Json) : Bool :=
  match v with
  | none => false
  | some .null => false
  | some (.arr _) => false
  | some _ => true

/-- `renderer.lockupViewModel ?? {}`. -/
def lockupOf (r : Json) : Json :=
  match getField r "lockupViewModel" with
  | none => .obj []
  | some .null => .obj []
  | some v => v

/-- `lockup.metadata?.lockupMetadataViewModel ?? {}`. -/
def lockupMetadataOf (r : Json) : Json :=
  match oField (getField (lockupOf r) "metadata") "lockupMetadataViewModel" with
  | none => .obj []
  | some .null => .obj []
  | some v => v

/-- `metadata.metadata?.contentMetadataViewModel?.metadataRows` (the value
before the `?? []`). -/
def metadataRowsVal (r : Json) : Option Json :=
  oField (oField (getField (lockupMetadataOf r) "metadata") "contentMetadataViewModel")
    "metadataRows"

/-- `lockup.contentImage?.collectionThumbnailViewModel?.primaryThumbnail?.
thumbnailViewModel?.overlays` (the value before the `?? []`). -/
def overlaysVal (r : Json) : Option Json :=
  oField (oField (oField (oField (getField (lockupOf r) "contentImage")
    "collectionThumbnailViewModel") "primaryThumbnail") "thumbnailViewModel")
    "overlays"

/-- The `metadataRows.map(row => ...)` body: each row's
`row?.metadataParts ?? []` is itself used via `.map`, which throws a
`TypeError` on a non-nullish non-array; otherwise the row's texts are joined
with spaces and trimmed. -/
def flattenRowsE : List Json → Except JsError (List JSStr)
  | [] => .ok []
  | row :: rest =>
    match jsArray? (oField (some row) "metadataParts") with
    | .error e => .error e
    | .ok parts =>
      let texts : List JSStr :=
        ((parts.map (fun part => getText (oField (some part) "text"))).filterMap id).filter
          (fun t => !t.isEmpty)
      match flattenRowsE rest with
      | .error e => .error e
      | .ok rs => .ok (trimL (joinWithSpace texts) :: rs)

/-- `convertLockupPlaylist` from the source. -/
def convertLockupPlaylist (r : Json) : Except JsError (Option Playlist) :=
  match (extractPlaylistId r).orElse
      (fun _ => ((getField r "lockupViewModel").map extractPlaylistId).getD none) with
  | none => .ok none
  | some pid =>
    let lockup : Json := lockupOf r
    let metadata : Json := lockupMetadataOf r
    let title : JSStr :=
      ((getText (getField metadata "title")).orElse
        (fun _ => getText (getField lockup "title"))).getD (jstr "Untitled playlist")
    match jsArray? (metadataRowsVal r) with
    | .error e => .error e
    | .ok metadataRows =>
      match flattenRowsE metadataRows with
      | .error e => .error e
      | .ok rawRows =>
        let flattenedRows : List JSStr := rawRows.filter (fun row => 0 < row.length)
        let description : JSStr :=
          ((getText (getField metadata "description")).orElse
            (fun _ => flattenedRows.find? (fun row => 60 < row.length))).getD []
        let privacyStatus : JSStr :=
          match flattenedRows.find? privacyRowTest with
          | none => jstr "unknown"
          | some row =>
            if containsCI (jstr "privat") row then jstr "private"
            else if containsCI (jstr "öffentlich") row || containsCI (jstr "public") row then
              jstr "public"
            else if containsCI (jstr "nicht gelistet") row ||
                containsCI (jstr "unlisted") row then
              jstr "unlisted"
            else jstr "unknown"
        let updatedRow : Option JSStr :=
          flattenedRows.find? (fun row =>
            hasWordBounded (jstr "updated") row || hasWordBounded (jstr "aktualisiert") row)
        let channelTitle : JSStr :=
          (flattenedRows.find? (fun row =>
            hasWordBounded (jstr "kanal") row || hasWordBounded (jstr "channel") row)).getD
            (jstr "Unknown channel")
        match jsArray? (overlaysVal r) with
        | .error e => .error e
        | .ok overlays =>
          let badgeText : Option JSStr :=
            (((overlays.map (fun overlay =>
              getText (oField (oField (oIndex (oField (oField (some overlay)
                "thumbnailOverlayBadgeViewModel") "thumbnailBadges") 0)
                "thumbnailBadgeViewModel") "text"))).filter
              (fun t =>
                match t with
                | some s => !s.isEmpty
                | none => false)).head?).getD none
          let itemCount : Option Int := badgeCount badgeText
          let thumbnailSources : List Json :=
            match oField (oField (oField (oField (oField (getField lockup "contentImage")
                "collectionThumbnailViewModel") "primaryThumbnail") "thumbnailViewModel")
                "image") "sources" with
            | some (.arr ss) => ss
            | _ => []
          .ok (some { id := pid, title := title, description := description,
                      channelTitle := channelTitle, privacyStatus := privacyStatus,
                      itemCount := itemCount.getD 0,
                      updatedAt := updatedRow.getD [],
                      thumbnailUrl := lastOrFirstUrl thumbnailSources })

/-- `convertRendererToPlaylist` from the source (legacy renderers; lockup
shapes are delegated to `convertLockupPlaylist`). -/
def convertRendererToPlaylist (r : Json) : Except JsError (Option Playlist) :=
  if lockupGate r then convertLockupPlaylist r
  else .ok
    (match extractPlaylistId r with
    | none => none
    | some pid =>
      let title : JSStr := (getText (getField r "title")).getD (jstr "Untitled playlist")
      let description : JSStr :=
        ((getText (getField r "descriptionSnippet")).orElse
          (fun _ => getText (getField r "description"))).getD []
      let channelTitle : JSStr :=
        ((getText (getField r "shortBylineText")).orElse
          (fun _ => getText (getField r "longBylineText"))).getD (jstr "Unknown channel")
      let countText : Json :=
        match getText (getField r "videoCountShortText") with
        | some s => .str s
        | none =>
          match getText (getField r "videoCountText") with
          | some s => .str s
          | none =>
            match getField r "videoCount" with
            | none => .str []
            | some .null => .str []
            | some v => v
      let itemCount : Option Int := legacyItemCount r countText
      let updatedAt : JSStr :=
        ((getText (getField r "publishedTimeText")).orElse
          (fun _ => getText (getField r "thumbnailText"))).getD []
      let privacyStatus : JSStr :=
        match getField r "privacyStatus" with
        | none =>
          if optTruthy (getField r "isEditable") then jstr "private" else jstr "unknown"
        | some .null =>
          if optTruthy (getField r "isEditable") then jstr "private" else jstr "unknown"
        | some v => jsonAsStr v
      let thumbnails : List Json :=
        match oField (getField r "thumbnail") "thumbnails" with
        | some (.arr ts) => ts
        | _ => []
      some { id := pid, title := title, description := description,
             channelTitle := channelTitle, privacyStatus := privacyStatus,
             itemCount := itemCount.getD 0,
             updatedAt := updatedAt,
             thumbnailUrl := lastOrFirstUrl thumbnails })

/-- The condition under which `convertLockupPlaylist` throws: one of its
three `(x ?? []).map(...)` sites (`metadataRows`, a row's `metadataParts`,
`overlays`) holds a non-nullish non-array value. -/
def lockupArraysBad (r : Json) : Bool :=
  badArrayVal (metadataRowsVal r) ||
  (match jsArray? (metadataRowsVal r) with
   | .ok rows => rows.any (fun row => badArrayVal (oField (some row) "metadataParts"))
   | .error _ => false) ||
  badArrayVal (overlaysVal r)

/-- `renderers.map(convertRendererToPlaylist).filter(item => item !== null)`:
sequential conversion, propagating the first thrown error, dropping the
`null` results. -/
def convertAll : List Json → Except JsError (List Playlist)
  | [] => .ok []
  | r :: rest =>
    match convertRendererToPlaylist r with
    | .error e => .error e
    | .ok none => convertAll rest
    | .ok (some p) =>
      match convertAll rest with
      | .error e => .error e
      | .ok ps => .ok (p :: ps)

/-- The id that record conversion resolves: the lockup branch falls back to
the id carried by the `lockupViewModel`, the legacy branch reads the renderer
itself (mirrors the two conversion functions). -/
def resolvedId (r : Json) : Option JSStr :=
  if lockupGate r then
    (extractPlaylistId r).orElse
      (fun _ => ((getField r "lockupViewModel").map extractPlaylistId).getD none)
  else extractPlaylistId r

/-- `typeof renderer?.videoCount === "number"`. -/
def hasNumericVideoCount (r : Json) : Bool :=
  match getField r "videoCount" with
  | some (.num _) => true
  | _ => false

/-! ## The response-tree extractor (`parseBrowseResponse`) -/

/-- The accumulator of the extractor's walk: collected renderer nodes (in
traversal order, duplicates kept) and collected continuation tokens (first
occurrence kept, deduplicated as by `seenContinuations`). -/
structure WalkAcc where
  renderers : List Json
  tokens : List JSStr

/-- `enqueueRenderer`: push the value if it is an object (`typeof === "object"`
and truthy); arrays count as objects. -/
def enqueueRenderer (rs : List Json) (v : Option Json) : List Json :=
  match v with
  | some (.obj fs) => rs ++ [.obj fs]
  | some (.arr es) => rs ++ [.arr es]
  | _ => rs

/-- `recordContinuation`: read the four legacy token locations in priority
order; keep a non-empty string token unless already seen. -/
def recordContinuation (ts : List JSStr) (node : Option Json) : List JSStr :=
  let record := fun (n : Json) =>
    let token :=
      coalesce (oField (oField (some n) "nextContinuationData") "continuation")
        (coalesce (oField (oField (some n) "reloadContinuationData") "continuation")
          (coalesce (oField (oField (oField (some n) "continuationEndpoint")
              "continuationCommand") "token")
            (oField (oField (oField (oField (some n) "continuationItemRenderer")
              "continuationEndpoint") "continuationCommand") "token")))
    match token with
    | some (.str (c :: cs)) =>
      if (c :: cs) ∈ ts then ts else ts ++ [c :: cs]
    | _ => ts
  match node with
  | some (.obj fs) => record (.obj fs)
  | some (.arr es) => record (.arr es)
  | _ => ts

/-- The per-node processing of `walk`: test the four renderer kinds (three
legacy fields plus the lockup gate, which enqueues the node itself) and
record continuations from the node and from `node.continuationItemRenderer`. -/
def processNode (n : Json) (acc : WalkAcc) : WalkAcc :=
  let rs := enqueueRenderer acc.renderers (getField n "playlistRenderer")
  let rs := enqueueRenderer rs (getField n "gridPlaylistRenderer")
  let rs := enqueueRenderer rs (getField n "compactPlaylistRenderer")
  let rs := if lockupGate n then rs ++ [n] else rs
  let ts := recordContinuation acc.tokens (some n)
  let ts := recordContinuation ts (getField n "continuationItemRenderer")
  ⟨rs, ts⟩

mutual

/-- The depth-first `walk` of `parseBrowseResponse`, here over a JSON tree:
scalars are skipped, arrays are iterated, and at each object the renderer
tests and continuation extraction run before recursing into every
object/array-valued field in insertion order.  On a tree (no shared
references), the source's explicit container-field recursions
(`richItemRenderer.content`, `gridRenderer.items`, ...) are subsumed by the
catch-all recursion over `Object.values` together with the visited-set check:
they only affect the order in which already-reachable children are entered,
never the set of nodes visited or records collected. -/
def walkJ : Json → WalkAcc → WalkAcc
  | .obj fs, acc => walkFields fs (processNode (.obj fs) acc)
  | .arr es, acc => walkElems es acc
  | _, acc => acc

def walkFields : List (String × Json) → WalkAcc → WalkAcc
  | [], acc => acc
  | f :: rest, acc => walkFields rest (walkJ f.2 acc)

def walkElems : List Json → WalkAcc → WalkAcc
  | [], acc => acc
  | e :: rest, acc => walkElems rest (walkJ e acc)

end

/-- `parseBrowseResponse` from the source: walk the document, convert the
collected renderers (dropping nulls; a conversion `TypeError` propagates out
of the parse), return the first continuation token. -/
def parseBrowseResponse (data : Json) : Except JsError (List Playlist × Option JSStr) :=
  let acc := walkJ data ⟨[], []⟩
  match convertAll acc.renderers with
  | .error e => .error e
  | .ok items => .ok (items, acc.tokens.head?)

/-! ## Errors, call traces and the two clients -/

/-- One network request, as recorded for the fallback/retry analysis: which
endpoint was hit, with which (prepared) headers and which cursor/id. -/
inductive CallEvent where
  | offPage (headers : HeaderMap) (pageToken : Option JSStr)
  | offDelete (headers : HeaderMap) (playlistId : JSStr)
  | innBrowse (headers : HeaderMap) (continuation : Option JSStr)
  | innDelete (headers : HeaderMap) (playlistId : JSStr)
deriving DecidableEq, Repr

/-- An internal-API browse responder: prepared headers and continuation in,
response document (or error) out. -/
abbrev InnOracle := HeaderMap → Option JSStr → Except JsError Json

/-- The dedup loop body of `fetchPlaylistsInnerTube`:
`if (!seen.has(item.id)) { playlists.push(item); seen.add(item.id) }`. -/
def dedupAppend : List Playlist → List Playlist → List JSStr →
    List Playlist × List JSStr
  | [], acc, seen => (acc, seen)
  | p :: rest, acc, seen =>
    if p.id ∈ seen then dedupAppend rest acc seen
    else dedupAppend rest (acc ++ [p]) (seen ++ [p.id])

/-- The `do … while (continuation)` loop of `fetchPlaylistsInnerTube`.  The
fuel bounds the number of pages fetched (`none` = the loop was still running
when the fuel ran out, which models the JS loop never terminating on an
oracle that produces continuation tokens forever). -/
def fetchPlaylistsInnerTubeGo (o : InnOracle) (h : HeaderMap) :
    Nat → Option JSStr → List Playlist → List JSStr → List CallEvent →
    Option (Except JsError (List Playlist)) × List CallEvent
  | 0, _, _, _, tr => (none, tr)
  | fuel + 1, cont, acc, seen, tr =>
    match o h cont with
    | .error e => (some (.error e), tr ++ [.innBrowse h cont])
    | .ok data =>
      match parseBrowseResponse data with
      | .error e => (some (.error e), tr ++ [.innBrowse h cont])
      | .ok parsed =>
        let step := dedupAppend parsed.1 acc seen
        match parsed.2 with
        | none => (some (.ok step.1), tr ++ [.innBrowse h cont])
        | some t =>
          fetchPlaylistsInnerTubeGo o h fuel (some t) step.1 step.2
            (tr ++ [.innBrowse h cont])

/-- `fetchPlaylistsInnerTube` from the source. -/
def fetchPlaylistsInnerTube (o : InnOracle) (h : HeaderMap) (fuel : Nat)
    (tr : List CallEvent) : Option (Except JsError (List Playlist)) × List CallEvent :=
  fetchPlaylistsInnerTubeGo o h fuel none [] [] tr

/-- Specification device for C6: the same page loop without the dedup step,
collecting every converted record of every fetched page in order. -/
def fetchPlaylistsInnerTubeRawGo (o : InnOracle) (h : HeaderMap) :
    Nat → Option JSStr → List Playlist → List CallEvent →
    Option (Except JsError (List Playlist)) × List CallEvent
  | 0, _, _, tr => (none, tr)
  | fuel + 1, cont, acc, tr =>
    match o h cont with
    | .error e => (some (.error e), tr ++ [.innBrowse h cont])
    | .ok data =>
      match parseBrowseResponse data with
      | .error e => (some (.error e), tr ++ [.innBrowse h cont])
      | .ok parsed =>
        match parsed.2 with
        | none => (some (.ok (acc ++ parsed.1)), tr ++ [.innBrowse h cont])
        | some t =>
          fetchPlaylistsInnerTubeRawGo o h fuel (some t) (acc ++ parsed.1)
            (tr ++ [.innBrowse h cont])

/-- Specification device for C6: all records of the fetched pages, in
discovery order. -/
def fetchPlaylistsInnerTubeRaw (o : InnOracle) (h : HeaderMap) (fuel : Nat)
    (tr : List CallEvent) : Option (Except JsError (List Playlist)) × List CallEvent :=
  fetchPlaylistsInnerTubeRawGo o h fuel none [] tr

/-- Specification device: first-occurrence-wins dedup by id, given the ids
already seen. -/
def dedupFirstFrom (seen : List JSStr) : List Playlist → List Playlist
  | [] => []
  | p :: rest =>
    if p.id ∈ seen then dedupFirstFrom seen rest
    else p :: dedupFirstFrom (seen ++ [p.id]) rest

/-- Specification device: first-occurrence-wins dedup by id. -/
def dedupFirst (l : List Playlist) : List Playlist := dedupFirstFrom [] l

/-! ## Concrete browse-page fixtures (used as witness inputs) -/

/-- A synthetic browse page: one `playlistRenderer` with id `PL1` (title A)
and a continuation item carrying token `TOK2`. -/
def browsePage1 : Json :=
  .obj
    [("contents", .obj
      [("playlistRenderer", .obj
        [("playlistId", .str (jstr "PL1")),
         ("title", .obj [("simpleText", .str (jstr "A"))])])]),
     ("continuationItemRenderer", .obj
      [("continuationEndpoint", .obj
        [("continuationCommand", .obj [("token", .str (jstr "TOK2"))])])])]

/-- A second synthetic browse page: again a renderer with id `PL1` (title B),
no further continuation. -/
def browsePage2 : Json :=
  .obj
    [("contents", .obj
      [("playlistRenderer", .obj
        [("playlistId", .str (jstr "PL1")),
         ("title", .obj [("simpleText", .str (jstr "B"))])])])]

/-- A scripted internal-API responder serving the two fixture pages. -/
def browseOracle : InnOracle := fun _ cont =>
  match cont with
  | none => .ok browsePage1
  | some t => if t = jstr "TOK2" then .ok browsePage2 else .error .generic

/-! ## The official-API client and the adapter facade -/

/-- `snippet` of an official-API playlist resource (all fields optional, as
in the `PlaylistApiResponse` interface). -/
structure ApiSnippet where
  title : Option JSStr
  description : Option JSStr
  channelTitle : Option JSStr
  thumbnails : Option (List (String × Option JSStr))
  publishedAt : Option JSStr
deriving DecidableEq, Repr

/-- One item of an official-API `playlists.list` page. -/
structure ApiItem where
  id : JSStr
  snippet : Option ApiSnippet
  privacyStatus : Option (Option JSStr)
  itemCount : Option (Option Int)
deriving DecidableEq, Repr

/-- One page of the official-API `playlists.list` response (`items ?? []`
already applied). -/
structure ApiPage where
  items : List ApiItem
  nextPageToken : Option JSStr
deriving DecidableEq, Repr

/-- `thumbnails[name]?.url` lookup. -/
def thumbUrl (sn : Option ApiSnippet) (name : String) : Option JSStr :=
  match sn with
  | none => none
  | some s =>
    match s.thumbnails with
    | none => none
    | some ts =>
      match ts.find? (fun t => t.1 == name) with
      | none => none
      | some t => t.2

/-- The record mapping of `fetchPlaylistsDataApi`: upstream fields with the
source's fallback defaults, and the `standard > high > medium > default`
thumbnail preference. -/
def convertApiItem (item : ApiItem) : Playlist :=
  { id := item.id,
    title := (item.snippet.bind (·.title)).getD (jstr "Untitled playlist"),
    description := (item.snippet.bind (·.description)).getD [],
    channelTitle := (item.snippet.bind (·.channelTitle)).getD [],
    privacyStatus := (item.privacyStatus.bind id).getD (jstr "unknown"),
    itemCount := (item.itemCount.bind id).getD 0,
    updatedAt := (item.snippet.bind (·.publishedAt)).getD [],
    thumbnailUrl :=
      ((thumbUrl item.snippet "standard").orElse
        (fun _ => (thumbUrl item.snippet "high").orElse
          (fun _ => (thumbUrl item.snippet "medium").orElse
            (fun _ => thumbUrl item.snippet "default")))) }

/-- An official-API page responder: prepared headers and page token in, page
(or error) out. -/
abbrev OffPageOracle := HeaderMap → Option JSStr → Except JsError ApiPage

/-- An official-API delete responder. -/
abbrev OffDeleteOracle := HeaderMap → JSStr → Except JsError Unit

/-- An internal-API delete responder. -/
abbrev InnDeleteOracle := HeaderMap → JSStr → Except JsError Unit

/-- The `do … while (pageToken)` loop of `fetchPlaylistsDataApi`; the loop
continues only on a truthy (non-empty) `nextPageToken`. -/
def fetchPlaylistsDataApiGo (o : OffPageOracle) (h : HeaderMap) :
    Nat → Option JSStr → List Playlist → List CallEvent →
    Option (Except JsError (List Playlist)) × List CallEvent
  | 0, _, _, tr => (none, tr)
  | fuel + 1, tok, acc, tr =>
    match o h tok with
    | .error e => (some (.error e), tr ++ [.offPage h tok])
    | .ok page =>
      match page.nextPageToken with
      | some (c :: cs) =>
        fetchPlaylistsDataApiGo o h fuel (some (c :: cs))
          (acc ++ page.items.map convertApiItem) (tr ++ [.offPage h tok])
      | _ => (some (.ok (acc ++ page.items.map convertApiItem)), tr ++ [.offPage h tok])

/-- `fetchPlaylistsDataApi` from the source. -/
def fetchPlaylistsDataApi (o : OffPageOracle) (h : HeaderMap) (fuel : Nat)
    (tr : List CallEvent) : Option (Except JsError (List Playlist)) × List CallEvent :=
  fetchPlaylistsDataApiGo o h fuel none [] tr

/-- `error instanceof YouTubeApiError && (error.status === 401 || error.status === 403)`. -/
def isAuthFailure : JsError → Bool
  | .api s => s == 401 || s == 403
  | _ => false

/-- `fetchAllPlaylists` from the source: prepare headers (a failure there is
a thrown validation `Error`), pick the backend, and on a 401/403
`YouTubeApiError` from the official path retry once against the internal
path with the same prepared headers. -/
def fetchAllPlaylists (off : OffPageOracle) (inn : InnOracle) (raw : HeaderMap)
    (fuelO fuelI : Nat) : Option (Except JsError (List Playlist)) × List CallEvent :=
  match prepareHeaders raw with
  | .error _ => (some (.error .generic), [])
  | .ok prepared =>
    if shouldUseInnerTube prepared.normalized then
      fetchPlaylistsInnerTube inn prepared.headers fuelI []
    else
      match fetchPlaylistsDataApi off prepared.headers fuelO [] with
      | (none, tr) => (none, tr)
      | (some (.ok ps), tr) => (some (.ok ps), tr)
      | (some (.error e), tr) =>
        if isAuthFailure e then fetchPlaylistsInnerTube inn prepared.headers fuelI tr
        else (some (.error e), tr)

/-- `deletePlaylist` from the source: same backend selection and one-shot
401/403 cross-backend fallback, for a single delete action. -/
def deletePlaylist (offD : OffDeleteOracle) (innD : InnDeleteOracle)
    (pid : JSStr) (raw : HeaderMap) : Except JsError Unit × List CallEvent :=
  match prepareHeaders raw with
  | .error _ => (.error .generic, [])
  | .ok prepared =>
    if shouldUseInnerTube prepared.normalized then
      (innD prepared.headers pid, [.innDelete prepared.headers pid])
    else
      match offD prepared.headers pid with
      | .ok _ => (.ok (), [.offDelete prepared.headers pid])
      | .error e =>
        if isAuthFailure e then
          (innD prepared.headers pid,
           [.offDelete prepared.headers pid, .innDelete prepared.headers pid])
        else (.error e, [.offDelete prepared.headers pid])

/-! ## The extractor walk over object graphs with shared references

`parseBrowseResponse`'s `walk` guards against cyclic and shared-reference
object graphs with a `WeakSet` of visited object identities.  Object identity
cannot be observed on the inductive `Json` tree, so for this aspect the
response document is embedded as a heap: a store of nodes addressed by index,
whose edges (`children`, the object/array-valued fields `walk` recurses into)
may point anywhere in the store, including back to an ancestor.  Each node
carries the renderer payload its renderer-kind tests would collect
(`enqueueRenderer`), as a tree, so the collected records still go through the
real record conversion.  The recursion is fueled exactly like the JS call
stack; the fuel models only the recursion depth, and the claim is that the
visited-set makes a store-sized fuel always sufficient. -/

/-- A node of the response object graph. -/
structure GNode where
  renderer : Option Json
  children : List Nat

/-- A response object graph: nodes addressed by index. -/
abbrev Graph := List GNode

/-- The walk state: visited object identities (in first-visit order) and the
collected renderer payloads (in collection order). -/
structure DfsState where
  visited : List Nat
  found : List Json

/-- `walk(node)` over the object graph: return at a dangling (non-object)
reference, return when the node's identity was already visited, otherwise
mark it visited, collect its renderer payload, and walk its children in
order, threading the state (a failed child walk fails the whole walk, which
only happens when the fuel, i.e. the call depth, runs out). -/
def dfsG (g : Graph) : Nat → Nat → DfsState → Option DfsState
  | 0, _, _ => none
  | fuel + 1, i, st =>
    match g.get? i with
    | none => some st
    | some node =>
      if i ∈ st.visited then some st
      else
        node.children.foldl (fun ost c => ost.bind (fun s => dfsG g fuel c s))
          (some ⟨st.visited ++ [i], st.found ++ node.renderer.toList⟩)

/-- The sequential walk of a children list (the fold inside `dfsG`, with an
arbitrary starting state). -/
def dfsChildren (g : Graph) (fuel : Nat) (cs : List Nat) (st : DfsState) :
    Option DfsState :=
  cs.foldl (fun ost c => ost.bind (fun s => dfsG g fuel c s)) (some st)

/-- `parseBrowseResponse` over an object graph: walk from the root with the
store-sized fuel, convert the collected renderers.  Returns the records and
the visited identities (`none` would mean the walk ran out of call depth). -/
def parseBrowseGraph (g : Graph) (root : Nat) :
    Option (Except JsError (List Playlist) × List Nat) :=
  match dfsG g (g.length + 1) root ⟨[], []⟩ with
  | none => none
  | some st => some (convertAll st.found, st.visited)

/-- A cyclic fixture: node 0 carries a playlist renderer and points to node
1, whose only child points back to its ancestor node 0. -/
def cyclicGraph : Graph :=
  [⟨some (.obj [("playlistId", .str (jstr "PL7"))]), [1]⟩,
   ⟨none, [0]⟩]

/-! ## Scripted responders (witness fixtures for the fallback claims) -/

def bearerRaw : HeaderMap := [(jstr "Authorization", jstr "Bearer tok")]

def bearerPrepared : PreparedHeaders :=
  ⟨buildHeaders (mergeNormalized bearerRaw), mergeNormalized bearerRaw⟩

/-- An official responder that always rejects with HTTP 403. -/
def off403 : OffPageOracle := fun _ _ => .error (.api 403)

/-- An internal responder returning an empty browse document. -/
def innEmpty : InnOracle := fun _ _ => .ok (.obj [])

/-- An official delete responder that always rejects with HTTP 401. -/
def offDel401 : OffDeleteOracle := fun _ _ => .error (.api 401)

/-- An internal delete responder that always succeeds. -/
def innDelOk : InnDeleteOracle := fun _ _ => .ok ()

/-- An official responder whose first page succeeds (empty, with a page
token) and whose second page rejects with HTTP 401: a mid-pagination
authorization failure. -/
def offMid401 : OffPageOracle := fun _ tok =>
  match tok with
  | none => .ok ⟨[], some (jstr "TOKB")⟩
  | some _ => .error (.api 401)

/-! ## Theorems and supporting lemmas -/

-- Basic examples checking the model evaluates as the source does.
example : normalizeHeaderName (jstr "x-goog-authuser") = jstr "X-Goog-Authuser" := by decide
example : normalizeHeaderName (jstr "  CONTENT-type ") = jstr "Content-Type" := by decide
example : normalizeHeaderName (jstr "DNT") = jstr "Dnt" := by decide
example : normalizeHeaderName (jstr "") = jstr "" := by decide

/-! ### Character-level lemmas -/

lemma lowerN_idem (c : Nat) : lowerN (lowerN c) = lowerN c := by
  unfold lowerN; split_ifs <;> omega

lemma lowerN_upperN (c : Nat) : lowerN (upperN c) = lowerN c := by
  unfold lowerN upperN; split_ifs <;> omega

lemma isJsWs_iff (c : Nat) : isJsWs c = true ↔
    (c = 9 ∨ c = 10 ∨ c = 11 ∨ c = 12 ∨ c = 13 ∨ c = 32 ∨ c = 160 ∨
     c = 5760 ∨ (8192 ≤ c ∧ c ≤ 8202) ∨ c = 8232 ∨ c = 8233 ∨ c = 8239 ∨
     c = 8287 ∨ c = 12288 ∨ c = 65279) := by
  simp only [isJsWs, Bool.or_eq_true, Bool.and_eq_true, beq_iff_eq, decide_eq_true_eq]
  omega

lemma isJsWs_upperN (c : Nat) : isJsWs (upperN c) = isJsWs c := by
  rw [Bool.eq_iff_iff, isJsWs_iff, isJsWs_iff]
  unfold upperN; split_ifs <;> omega

lemma isJsWs_lowerN (c : Nat) : isJsWs (lowerN c) = isJsWs c := by
  rw [Bool.eq_iff_iff, isJsWs_iff, isJsWs_iff]
  unfold lowerN; split_ifs <;> omega

/-! ### `trimL` lemmas -/

lemma dropWhile_map_of {p : Nat → Bool} {f : Nat → Nat}
    (h : ∀ c, p (f c) = p c) (l : List Nat) :
    List.dropWhile p (l.map f) = (List.dropWhile p l).map f := by
  induction l with
  | nil => simp
  | cons c cs ih =>
    simp only [List.map_cons, List.dropWhile_cons, h c]
    split <;> simp [ih]

lemma rdropWhile_map_of {p : Nat → Bool} {f : Nat → Nat}
    (h : ∀ c, p (f c) = p c) (l : List Nat) :
    List.rdropWhile p (l.map f) = (List.rdropWhile p l).map f := by
  unfold List.rdropWhile
  rw [← List.map_reverse, dropWhile_map_of h, List.map_reverse]

lemma trimL_map_lowerN (l : JSStr) : trimL (l.map lowerN) = (trimL l).map lowerN := by
  unfold trimL
  rw [dropWhile_map_of isJsWs_lowerN, rdropWhile_map_of isJsWs_lowerN]

lemma trimL_eq_self_parts {l : JSStr} (h : trimL l = l) :
    List.dropWhile isJsWs l = l ∧ List.rdropWhile isJsWs l = l := by
  have hsfx : List.dropWhile isJsWs l <:+ l := List.dropWhile_suffix _
  have hlen : l.length ≤ (List.dropWhile isJsWs l).length := by
    conv_lhs => rw [← h]
    exact (List.rdropWhile_prefix _ _).length_le
  have h1 : List.dropWhile isJsWs l = l :=
    hsfx.eq_of_length (le_antisymm hsfx.length_le hlen)
  refine ⟨h1, ?_⟩
  have := h
  unfold trimL at this
  rwa [h1] at this

lemma trimL_of_parts {l : JSStr} (h1 : List.dropWhile isJsWs l = l)
    (h2 : List.rdropWhile isJsWs l = l) : trimL l = l := by
  unfold trimL; rw [h1, h2]

lemma dropWhile_cons_self {p : Nat → Bool} {c : Nat} {cs : List Nat}
    (h : p c = false) : List.dropWhile p (c :: cs) = c :: cs := by
  simp [List.dropWhile_cons, h]

lemma trimL_idem (l : JSStr) : trimL (trimL l) = trimL l := by
  unfold trimL
  have h1 : List.dropWhile isJsWs ((List.dropWhile isJsWs l).rdropWhile isJsWs) =
      (List.dropWhile isJsWs l).rdropWhile isJsWs := by
    cases hm : (List.dropWhile isJsWs l).rdropWhile isJsWs with
    | nil => simp
    | cons c cs =>
      have hpre : (List.dropWhile isJsWs l).rdropWhile isJsWs <+: List.dropWhile isJsWs l :=
        List.rdropWhile_prefix _ _
      rw [hm] at hpre
      have hne : List.dropWhile isJsWs l ≠ [] := by
        intro hc
        rw [hc] at hpre
        have := List.IsPrefix.length_le hpre
        simp at this
      have hhead := hpre.head (by simp)
      simp only [List.head_cons] at hhead
      have hnot := List.head_dropWhile_not isJsWs l hne
      rw [← hhead] at hnot
      exact dropWhile_cons_self hnot
  rw [h1, List.rdropWhile_idempotent]

/-! ### `splitDash` / `joinDash` lemmas -/

lemma splitDash_ne_nil (l : JSStr) : splitDash l ≠ [] := by
  induction l with
  | nil => simp [splitDash]
  | cons c cs ih =>
    unfold splitDash
    split
    · simp
    · cases h : splitDash cs <;> simp

lemma joinDash_splitDash (l : JSStr) : joinDash (splitDash l) = l := by
  induction l with
  | nil => simp [splitDash, joinDash]
  | cons c cs ih =>
    unfold splitDash
    split
    · rename_i hc
      subst hc
      obtain ⟨s, rest, hs⟩ : ∃ s rest, splitDash cs = s :: rest := by
        cases h : splitDash cs with
        | nil => exact absurd h (splitDash_ne_nil cs)
        | cons s rest => exact ⟨s, rest, rfl⟩
      rw [hs]
      rw [hs] at ih
      show joinDash ([] :: s :: rest) = 45 :: cs
      rw [← ih]
      rfl
    · rename_i hc
      obtain ⟨s, rest, hs⟩ : ∃ s rest, splitDash cs = s :: rest := by
        cases h : splitDash cs with
        | nil => exact absurd h (splitDash_ne_nil cs)
        | cons s rest => exact ⟨s, rest, rfl⟩
      rw [hs]
      rw [hs] at ih
      cases rest with
      | nil => simpa [joinDash] using congrArg (c :: ·) ih
      | cons r rs =>
        show (c :: s) ++ 45 :: joinDash (r :: rs) = c :: cs
        have : s ++ 45 :: joinDash (r :: rs) = cs := ih
        simpa using congrArg (c :: ·) this

lemma map_joinDash {f : Nat → Nat} (h45 : f 45 = 45) :
    ∀ ls : List JSStr, (joinDash ls).map f = joinDash (ls.map (List.map f))
  | [] => by simp [joinDash]
  | [s] => by simp [joinDash]
  | s :: s' :: rest => by
    show (s ++ 45 :: joinDash (s' :: rest)).map f = joinDash (s.map f :: (s' :: rest).map (List.map f))
    rw [List.map_append, List.map_cons, h45, map_joinDash h45 (s' :: rest)]
    rfl

lemma splitDash_mem_subset : ∀ (l : JSStr) (seg : JSStr), seg ∈ splitDash l → ∀ c ∈ seg, c ∈ l := by
  intro l
  induction l with
  | nil =>
    intro seg hseg c hc
    simp [splitDash] at hseg
    subst hseg
    simp at hc
  | cons x xs ih =>
    intro seg hseg c hc
    unfold splitDash at hseg
    split at hseg
    · rcases List.mem_cons.mp hseg with h | h
      · subst h; simp at hc
      · exact List.mem_cons_of_mem _ (ih seg h c hc)
    · rcases hs : splitDash xs with _ | ⟨s, rest⟩
      · exact absurd hs (splitDash_ne_nil xs)
      · rw [hs] at hseg
        rcases List.mem_cons.mp hseg with h | h
        · subst h
          rcases List.mem_cons.mp hc with h' | h'
          · subst h'; exact List.mem_cons_self _ _
          · exact List.mem_cons_of_mem _ (ih s (hs ▸ List.mem_cons_self s rest) c h')
        · exact List.mem_cons_of_mem _ (ih seg (hs ▸ List.mem_cons_of_mem s h) c hc)

/-! ### Whitespace-profile lemmas (for `trim` stability of `normalizeHeaderName`) -/

lemma upperChar_ascii {c : Nat} (h : c ≤ 127) : upperChar c = [upperN c] := by
  unfold upperChar
  rw [if_neg (by omega)]

lemma lowerN_ascii {c : Nat} (h : c ≤ 127) : lowerN c ≤ 127 := by
  unfold lowerN
  split_ifs <;> omega

lemma trimL_subset {l : JSStr} : ∀ c ∈ trimL l, c ∈ l := by
  intro c hc
  unfold trimL at hc
  have h1 : c ∈ l.dropWhile isJsWs := (List.rdropWhile_prefix _ _).subset hc
  exact (List.dropWhile_suffix _).subset h1

lemma wsProfile_capFirst (seg : JSStr) (hA : ∀ c ∈ seg, c ≤ 127) :
    (capFirst seg).map isJsWs = seg.map isJsWs := by
  cases seg with
  | nil => rfl
  | cons c cs =>
    rw [show capFirst (c :: cs) = upperChar c ++ cs from rfl,
      upperChar_ascii (hA c (List.mem_cons_self _ _))]
    simp [isJsWs_upperN]

lemma wsProfile_joinDash_capFirst :
    ∀ ls : List JSStr, (∀ seg ∈ ls, ∀ c ∈ seg, c ≤ 127) →
      (joinDash (ls.map capFirst)).map isJsWs = (joinDash ls).map isJsWs
  | [], _ => rfl
  | [s], hA => by
    simpa [joinDash] using wsProfile_capFirst s (hA s (List.mem_cons_self _ _))
  | s :: s' :: rest, hA => by
    have ih := wsProfile_joinDash_capFirst (s' :: rest)
      (fun seg hseg => hA seg (List.mem_cons_of_mem _ hseg))
    simp only [List.map_cons] at ih
    show (capFirst s ++ 45 :: joinDash (capFirst s' :: rest.map capFirst)).map isJsWs
        = (s ++ 45 :: joinDash (s' :: rest)).map isJsWs
    simp only [List.map_append, List.map_cons]
    rw [wsProfile_capFirst s (hA s (List.mem_cons_self _ _)), ih]

lemma dropWhile_eq_self_of_profile :
    ∀ {a b : JSStr}, a.map isJsWs = b.map isJsWs →
      List.dropWhile isJsWs b = b → List.dropWhile isJsWs a = a := by
  intro a b hp hb
  cases a with
  | nil => rfl
  | cons x xs =>
    cases b with
    | nil => simp at hp
    | cons y ys =>
      simp only [List.map_cons, List.cons.injEq] at hp
      have hy : isJsWs y = false := by
        by_contra hc
        have hy' : isJsWs y = true := by
          cases h : isJsWs y
          · exact absurd h hc
          · rfl
        rw [List.dropWhile_cons, if_pos hy'] at hb
        have := congrArg List.length hb
        have hle := (List.dropWhile_suffix (l := ys) isJsWs).length_le
        simp at this
        omega
      exact dropWhile_cons_self (hp.1.trans hy)

lemma trimL_eq_self_of_profile {a b : JSStr}
    (hp : a.map isJsWs = b.map isJsWs) (hb : trimL b = b) : trimL a = a := by
  obtain ⟨hb1, hb2⟩ := trimL_eq_self_parts hb
  have ha1 : List.dropWhile isJsWs a = a := dropWhile_eq_self_of_profile hp hb1
  have hrp : a.reverse.map isJsWs = b.reverse.map isJsWs := by
    rw [List.map_reverse, List.map_reverse, hp]
  have hb2' : List.dropWhile isJsWs b.reverse = b.reverse := by
    have := hb2
    unfold List.rdropWhile at this
    rwa [List.reverse_eq_iff] at this
  have ha2' : List.dropWhile isJsWs a.reverse = a.reverse :=
    dropWhile_eq_self_of_profile hrp hb2'
  have ha2 : List.rdropWhile isJsWs a = a := by
    unfold List.rdropWhile
    rw [ha2', List.reverse_reverse]
  exact trimL_of_parts ha1 ha2

/-! ### Lowercase-fixpoint lemmas -/

lemma lowerN_fixed_of_mem_map {c : Nat} {l : JSStr} (h : c ∈ l.map lowerN) :
    lowerN c = c := by
  obtain ⟨d, _, rfl⟩ := List.mem_map.mp h
  exact lowerN_idem d

lemma map_lowerN_capFirst {seg : JSStr} (h : ∀ c ∈ seg, lowerN c = c)
    (hA : ∀ c ∈ seg, c ≤ 127) :
    (capFirst seg).map lowerN = seg := by
  cases seg with
  | nil => rfl
  | cons c cs =>
    rw [show capFirst (c :: cs) = upperChar c ++ cs from rfl,
      upperChar_ascii (hA c (List.mem_cons_self _ _))]
    simp only [List.singleton_append, List.map_cons, List.cons.injEq]
    constructor
    · rw [lowerN_upperN]
      exact h c (List.mem_cons_self _ _)
    · have hcs : ∀ x ∈ cs, lowerN x = x := fun x hx => h x (List.mem_cons_of_mem _ hx)
      calc cs.map lowerN = cs.map id := List.map_congr_left hcs
        _ = cs := List.map_id cs

/-- C9 counterexample: on `"ß"` the source's `normalizeHeaderName` is not
idempotent.  `"ß".toLowerCase()` is `"ß"` and `"ß".toUpperCase()` is the
special-cased `"SS"`, so `normalize("ß") = "SS"`, while
`normalize("SS") = "Ss"`. -/
theorem c9_counterexample_sharp_s_not_idempotent :
    normalizeHeaderName (jstr "ß") = jstr "SS" ∧
    normalizeHeaderName (jstr "SS") = jstr "Ss" ∧
    normalizeHeaderName (normalizeHeaderName (jstr "ß")) ≠
      normalizeHeaderName (jstr "ß") := by
  refine ⟨by decide, by decide, by decide⟩

/-- C9 (amended): `normalize(normalize(x)) = normalize(x)` for every string
`x` of Basic Latin (ASCII) code points — the alphabet of HTTP header names —
where the case mappings are single-code-point and mutually inverse; outside
it, Unicode special casing (e.g. `ß → "SS"`) breaks idempotence. -/
theorem c9_amended_normalizeHeaderName_idempotent_ascii (s : JSStr)
    (hascii : ∀ c ∈ s, c ≤ 127) :
    normalizeHeaderName (normalizeHeaderName s) = normalizeHeaderName s := by
  have hdef : ∀ x : JSStr,
      normalizeHeaderName x = joinDash ((splitDash ((trimL x).map lowerN)).map capFirst) :=
    fun _ => rfl
  set t : JSStr := (trimL s).map lowerN with ht
  set segs : List JSStr := splitDash t with hsegs
  set out : JSStr := joinDash (segs.map capFirst) with hout
  have hnorm : normalizeHeaderName s = out := rfl
  have hA_t : ∀ c ∈ t, c ≤ 127 := by
    intro c hc
    rw [ht] at hc
    obtain ⟨d, hd, rfl⟩ := List.mem_map.mp hc
    exact lowerN_ascii (hascii d (trimL_subset d hd))
  have hA_segs : ∀ seg ∈ segs, ∀ c ∈ seg, c ≤ 127 := by
    intro seg hseg c hc
    rw [hsegs] at hseg
    exact hA_t c (splitDash_mem_subset t seg hseg c hc)
  have h_t_trim : trimL t = t := by
    rw [ht, trimL_map_lowerN, trimL_idem]
  have h_join : joinDash segs = t := joinDash_splitDash t
  have h_profile : out.map isJsWs = t.map isJsWs := by
    rw [hout, wsProfile_joinDash_capFirst segs hA_segs, h_join]
  have h_trim_out : trimL out = out := trimL_eq_self_of_profile h_profile h_t_trim
  have h_lower_out : out.map lowerN = t := by
    rw [hout, map_joinDash (f := lowerN) (by decide) (segs.map capFirst), List.map_map]
    have hfix : segs.map (List.map lowerN ∘ capFirst) = segs := by
      have hall : ∀ seg ∈ segs, (List.map lowerN ∘ capFirst) seg = seg := by
        intro seg hseg
        apply map_lowerN_capFirst
        · intro c hc
          have hct : c ∈ t := splitDash_mem_subset t seg hseg c hc
          rw [ht] at hct
          exact lowerN_fixed_of_mem_map hct
        · exact hA_segs seg hseg
      calc segs.map (List.map lowerN ∘ capFirst) = segs.map id := List.map_congr_left hall
        _ = segs := List.map_id segs
    rw [hfix, h_join]
  rw [hnorm, hdef out, h_trim_out, h_lower_out, ← hsegs, ← hout]

/-- Witness for the amended C9 at an ASCII header name. -/
theorem c9_amended_normalizeHeaderName_idempotent_ascii_witness :
    (∀ c ∈ jstr "x-GOOG-authuser", c ≤ 127) ∧
    normalizeHeaderName (normalizeHeaderName (jstr "x-GOOG-authuser")) =
      normalizeHeaderName (jstr "x-GOOG-authuser") :=
  ⟨by decide, c9_amended_normalizeHeaderName_idempotent_ascii
    (jstr "x-GOOG-authuser") (by decide)⟩

/-! ### C2: credential classification / backend selection -/

-- Sanity checks of the classifier model against the spec's examples.
example : selectBackend [(jstr "Authorization", jstr "Bearer abc")] = .ok .official := by decide
example : selectBackend [(jstr "Authorization", jstr "SAPISIDHASH 123_abc")] = .ok .internal := by
  decide
example : selectBackend [] = .error (jstr "Authorization header is required.") := by decide

/-- C2 counterexample: with Authorization `"Bearer"` (no whitespace, no
token), neither spec shape matches, so the claim demands a validation error;
but the code selects the official backend (it only errors on a missing or
blank Authorization). -/
theorem c2_counterexample_bearer_no_token :
    specOfficialShape (jstr "Bearer") = false ∧
    specInternalShape (jstr "Bearer") = false ∧
    selectBackend [(jstr "Authorization", jstr "Bearer")] = .ok .official := by
  refine ⟨by decide, by decide, by decide⟩

/-- C2 (amended): the code's actual classification.  The only validation
error is a missing or blank Authorization after normalization and merging;
for a present non-blank Authorization, the official backend is selected iff
`/^Bearer\s+/i` matches (no non-whitespace token is required after the
whitespace), otherwise the internal backend is selected iff the value
contains `SAPISID` case-insensitively, and any other value also selects the
official backend (no validation error for a present-but-unrecognized
shape). -/
theorem c2_amended_backend_selection (raw : HeaderMap) :
    (isBlank ((getVal (mergeNormalized raw) (jstr "Authorization")).getD []) = true →
      selectBackend raw = .error (jstr "Authorization header is required.")) ∧
    (isBlank ((getVal (mergeNormalized raw) (jstr "Authorization")).getD []) = false →
      selectBackend raw = .ok
        (if bearerPrefixTest ((getVal (mergeNormalized raw) (jstr "Authorization")).getD [])
         then .official
         else if sapisidTest ((getVal (mergeNormalized raw) (jstr "Authorization")).getD [])
         then .internal
         else .official)) := by
  cases hga : getVal (mergeNormalized raw) (jstr "Authorization") with
  | none =>
    constructor
    · intro _
      simp [selectBackend, prepareHeaders, hga, Except.map]
    · intro hb
      exact absurd hb (by decide)
  | some v =>
    simp only [Option.getD_some]
    constructor
    · intro hb
      simp [selectBackend, prepareHeaders, hga, hb, Except.map]
    · intro hb
      simp only [selectBackend, prepareHeaders, hga, hb, Bool.false_eq_true, if_false,
        Except.map]
      unfold shouldUseInnerTube
      rw [hga]
      simp only [Option.getD_some]
      cases hbt : bearerPrefixTest v <;> simp

/-- Witness for the amended C2 theorem: the spec's own internal-path example
selects the internal backend. -/
theorem c2_amended_backend_selection_witness :
    isBlank ((getVal (mergeNormalized [(jstr "Authorization", jstr "SAPISIDHASH 123_abc")])
        (jstr "Authorization")).getD []) = false ∧
    selectBackend [(jstr "Authorization", jstr "SAPISIDHASH 123_abc")] = .ok .internal := by
  refine ⟨by decide, ?_⟩
  have h := (c2_amended_backend_selection
    [(jstr "Authorization", jstr "SAPISIDHASH 123_abc")]).2 (by decide)
  exact h.trans (by decide)

/-! ### C8: carrier re-routing and the forbidden-name set -/

/-- C8: evaluation at the failing input.  The header `DNT: 1` is listed in
`FORBIDDEN_HEADER_NAMES`, but the forbidden-set test runs on canonicalized
names and the set holds the uncanonical spelling `DNT`; the canonical form
`Dnt` is not matched, so the header is forwarded (as `Dnt: 1`) instead of
being dropped. -/
theorem c8_dnt_forwarded_not_dropped :
    (jstr "DNT") ∈ FORBIDDEN_HEADER_NAMES ∧
    normalizeHeaderName (jstr "DNT") = jstr "Dnt" ∧
    isForbiddenHeaderName (jstr "Dnt") = false ∧
    prepareHeaders [(jstr "Authorization", jstr "Bearer abc"), (jstr "DNT", jstr "1")] =
      .ok ⟨buildHeaders (mergeNormalized
              [(jstr "Authorization", jstr "Bearer abc"), (jstr "DNT", jstr "1")]),
           mergeNormalized
              [(jstr "Authorization", jstr "Bearer abc"), (jstr "DNT", jstr "1")]⟩ ∧
    hGet (buildHeaders (mergeNormalized
              [(jstr "Authorization", jstr "Bearer abc"), (jstr "DNT", jstr "1")]))
        (jstr "Dnt") = some (jstr "1") := by
  refine ⟨by decide, by decide, by decide, by decide, by decide⟩

/-! ### C10: blank values are omitted, forwarded values are trimmed -/

lemma hSet_values {P : JSStr → Prop} {hs : HeaderMap} {n v : JSStr}
    (hinv : ∀ e ∈ hs, P e.2) (hv : P v) : ∀ e ∈ hSet hs n v, P e.2 := by
  intro e he
  simp only [hSet] at he
  split at he
  · obtain ⟨e', he', heq⟩ := List.mem_map.mp he
    by_cases hk : (e'.1 == n.map lowerN) = true
    · rw [if_pos hk] at heq
      rw [← heq]
      exact hv
    · rw [if_neg hk] at heq
      rw [← heq]
      exact hinv e' he'
  · rcases List.mem_append.mp he with h | h
    · exact hinv e h
    · simp at h
      subst h
      exact hv

lemma buildStep_values {hs : HeaderMap} {e : JSStr × JSStr}
    (hinv : ∀ x ∈ hs, trimL x.2 = x.2 ∧ x.2 ≠ []) :
    ∀ x ∈ buildStep hs e, trimL x.2 = x.2 ∧ x.2 ≠ [] := by
  intro x hx
  simp only [buildStep] at hx
  split at hx
  · exact hinv x hx
  · rename_i hb
    have hv : trimL (trimL e.2) = trimL e.2 ∧ trimL e.2 ≠ [] := by
      refine ⟨trimL_idem e.2, ?_⟩
      intro hc
      rw [isBlank, hc] at hb
      simp at hb
    split at hx
    · exact hSet_values (P := fun v => trimL v = v ∧ v ≠ []) hinv hv x hx
    · split at hx
      · exact hinv x hx
      · exact hSet_values (P := fun v => trimL v = v ∧ v ≠ []) hinv hv x hx

lemma buildFold_values :
    ∀ (m init : HeaderMap), (∀ x ∈ init, trimL x.2 = x.2 ∧ x.2 ≠ []) →
      ∀ x ∈ m.foldl buildStep init, trimL x.2 = x.2 ∧ x.2 ≠ [] := by
  intro m
  induction m with
  | nil => intro init hinit x hx; exact hinit x hx
  | cons e rest ih =>
    intro init hinit x hx
    exact ih (buildStep init e) (buildStep_values hinit) x hx

lemma buildFold_filter :
    ∀ (m init : HeaderMap),
      m.foldl buildStep init = (m.filter (fun e => !isBlank e.2)).foldl buildStep init := by
  intro m
  induction m with
  | nil => intro init; rfl
  | cons e rest ih =>
    intro init
    by_cases hb : isBlank e.2 = true
    · have hstep : buildStep init e = init := by simp [buildStep, hb]
      simp only [List.foldl_cons, hstep, List.filter_cons, hb]
      exact ih init
    · have hb' : isBlank e.2 = false := by
        cases h : isBlank e.2
        · rfl
        · exact absurd h hb
      simp only [List.foldl_cons, List.filter_cons, hb', Bool.not_false, if_pos]
      exact ih (buildStep init e)

/-- C10: for every input header map accepted by `prepareHeaders`, every
blank-valued entry of the merged-and-normalized map is omitted from the
outgoing header set (the output equals what is built from the non-blank
entries alone), and every forwarded value is trimmed of surrounding
whitespace (and in particular non-empty). -/
theorem c10_blank_dropped_and_values_trimmed (raw : HeaderMap) (p : PreparedHeaders)
    (h : prepareHeaders raw = .ok p) :
    (∀ e ∈ p.headers, trimL e.2 = e.2 ∧ e.2 ≠ []) ∧
    p.headers = buildHeaders (p.normalized.filter (fun e => !isBlank e.2)) := by
  have hp : p.headers = buildHeaders (mergeNormalized raw) ∧
      p.normalized = mergeNormalized raw := by
    simp only [prepareHeaders] at h
    split at h
    · cases h
    · split at h
      · cases h
      · injection h with h'
        rw [← h']
        exact ⟨rfl, rfl⟩
  obtain ⟨h1, h2⟩ := hp
  constructor
  · rw [h1]
    exact buildFold_values (mergeNormalized raw) [] (by intro x hx; cases hx)
  · rw [h1, h2]
    exact buildFold_filter (mergeNormalized raw) []

/-- Witness for C10 at a concrete input containing a blank-valued header. -/
theorem c10_blank_dropped_and_values_trimmed_witness :
    (∀ e ∈ (buildHeaders (mergeNormalized
        [(jstr "Authorization", jstr "Bearer x"), (jstr "X-Test", jstr "   ")])),
      trimL e.2 = e.2 ∧ e.2 ≠ []) ∧
    buildHeaders (mergeNormalized
        [(jstr "Authorization", jstr "Bearer x"), (jstr "X-Test", jstr "   ")]) =
      buildHeaders ((mergeNormalized
        [(jstr "Authorization", jstr "Bearer x"), (jstr "X-Test", jstr "   ")]).filter
          (fun e => !isBlank e.2)) :=
  c10_blank_dropped_and_values_trimmed
    [(jstr "Authorization", jstr "Bearer x"), (jstr "X-Test", jstr "   ")]
    ⟨buildHeaders (mergeNormalized
        [(jstr "Authorization", jstr "Bearer x"), (jstr "X-Test", jstr "   ")]),
     mergeNormalized
        [(jstr "Authorization", jstr "Bearer x"), (jstr "X-Test", jstr "   ")]⟩
    (by decide)

/-! ### C1: the spec's legacy round-trip example -/

/-- C1 counterexample: the spec's synthetic legacy renderer carries its
playlist id under the field `id`, but `extractPlaylistId` only reads
`playlistId`/`contentId` (or the navigation locations), so conversion
discards the record instead of producing `{id:"PL9", ...}`. -/
theorem c1_counterexample_id_field_not_read :
    convertRendererToPlaylist (.obj
      [("id", .str (jstr "PL9")),
       ("title", .obj [("simpleText", .str (jstr "Road trip"))]),
       ("videoCountText", .obj [("simpleText", .str (jstr "12 videos"))])]) =
      .ok none := by
  decide

/-- C1 (amended): with the id under the field the code actually reads
(`playlistId`), conversion yields id `"PL9"`, title `"Road trip"` and
itemCount `12` (with the documented fallback defaults in the other fields). -/
theorem c1_amended_playlistId_roundtrip :
    convertRendererToPlaylist (.obj
      [("playlistId", .str (jstr "PL9")),
       ("title", .obj [("simpleText", .str (jstr "Road trip"))]),
       ("videoCountText", .obj [("simpleText", .str (jstr "12 videos"))])]) =
    .ok (some { id := jstr "PL9", title := jstr "Road trip", description := [],
                privacyStatus := jstr "unknown", itemCount := 12,
                channelTitle := jstr "Unknown channel", updatedAt := [],
                thumbnailUrl := none }) := by
  decide

/-! ### C5: conversion totality, id and itemCount invariants -/

/-- C5 counterexample: conversion violates the claim in two ways.  A
renderer with a numeric `videoCount: -5` converts to a `Playlist` whose
`itemCount` is `-5` (the numeric field is passed through unchecked,
violating non-negativity); and a lockup renderer whose `metadataRows` is the
string `"x"` makes conversion throw a `TypeError` (`(x ?? []).map` on a
non-array), violating totality/error-freeness. -/
theorem c5_counterexample_negative_videoCount :
    convertRendererToPlaylist (.obj
      [("playlistId", .str (jstr "PL1")), ("videoCount", .num (-5))]) =
    .ok (some { id := jstr "PL1", title := jstr "Untitled playlist",
                description := [], privacyStatus := jstr "unknown",
                itemCount := -5, channelTitle := jstr "Unknown channel",
                updatedAt := [], thumbnailUrl := none }) ∧
    convertRendererToPlaylist (.obj
      [("lockupViewModel", .obj
        [("contentId", .str (jstr "PL1")),
         ("metadata", .obj [("lockupMetadataViewModel", .obj
           [("metadata", .obj [("contentMetadataViewModel", .obj
             [("metadataRows", .str (jstr "x"))])])])])])]) =
    .error .typeError := by
  refine ⟨by decide, by decide⟩

lemma jsArray?_error_iff (v : Option Json) (e : JsError) :
    jsArray? v = .error e ↔ (e = .typeError ∧ badArrayVal v = true) := by
  rcases v with _ | x
  · simp [jsArray?, badArrayVal]
  · cases x <;> simp [jsArray?, badArrayVal] <;> exact eq_comm

lemma jsArray?_error_of_bad {v : Option Json} (h : badArrayVal v = true) :
    jsArray? v = .error .typeError := by
  rcases v with _ | x
  · simp [badArrayVal] at h
  · cases x <;> first
      | rfl
      | (simp [badArrayVal] at h)

lemma jsArray?_ok_of_not_bad {v : Option Json} (h : badArrayVal v = false) :
    ∃ l, jsArray? v = .ok l := by
  rcases v with _ | x
  · exact ⟨[], rfl⟩
  · cases x <;> first
      | exact ⟨[], rfl⟩
      | exact ⟨_, rfl⟩
      | (simp [badArrayVal] at h)

lemma flattenRowsE_error_iff (rows : List Json) (e : JsError) :
    flattenRowsE rows = .error e ↔
      (e = .typeError ∧
       rows.any (fun row => badArrayVal (oField (some row) "metadataParts")) = true) := by
  induction rows generalizing e with
  | nil => simp [flattenRowsE]
  | cons row rest ih =>
    rw [flattenRowsE]
    cases hp : jsArray? (oField (some row) "metadataParts") with
    | error e1 =>
      obtain ⟨he1, hbad⟩ := (jsArray?_error_iff _ _).mp hp
      subst he1
      simp [hbad]
      exact eq_comm
    | ok parts =>
      have hnotbad : badArrayVal (oField (some row) "metadataParts") = false := by
        rcases hb : badArrayVal (oField (some row) "metadataParts")
        · rfl
        · rw [jsArray?_error_of_bad hb] at hp
          cases hp
      cases hrec : flattenRowsE rest with
      | error e2 =>
        obtain ⟨he2, hany⟩ := (ih e2).mp hrec
        subst he2
        simp [hnotbad, hany]
        exact eq_comm
      | ok rs =>
        simp only [hnotbad, List.any_cons, Bool.false_or]
        constructor
        · intro hc
          cases hc
        · rintro ⟨he, hany⟩
          rw [(ih e).mpr ⟨he, hany⟩] at hrec
          cases hrec

lemma extractPlaylistId_ne_nil {r : Json} {s : JSStr}
    (h : extractPlaylistId r = some s) : s ≠ [] := by
  unfold extractPlaylistId at h
  split at h
  · injection h with h'
    subst h'
    simp
  · split at h
    · injection h with h'
      subst h'
      simp
    · cases h

lemma resolvedId_ne_nil {r : Json} {s : JSStr}
    (h : resolvedId r = some s) : s ≠ [] := by
  unfold resolvedId at h
  split at h
  · rcases he : extractPlaylistId r with _ | v
    · rw [he] at h
      simp only [Option.orElse] at h
      rcases hl : getField r "lockupViewModel" with _ | lv
      · rw [hl] at h
        simp at h
      · rw [hl] at h
        simp only [Option.map_some', Option.getD_some] at h
        exact extractPlaylistId_ne_nil h
    · rw [he] at h
      simp only [Option.orElse] at h
      injection h with h'
      subst h'
      exact extractPlaylistId_ne_nil he
  · exact extractPlaylistId_ne_nil h

lemma parseIntDec_nonneg {s : JSStr} {n : Int} (h : parseIntDec s = some n) : 0 ≤ n := by
  unfold parseIntDec at h
  by_cases he : (s.takeWhile (fun c => 48 ≤ c && c ≤ 57)).isEmpty = true
  · simp [he] at h
  · simp only [he, if_false] at h
    injection h with h'
    rw [← h']
    exact Int.ofNat_nonneg _

lemma badgeCount_nonneg (bt : Option JSStr) : 0 ≤ (badgeCount bt).getD 0 := by
  unfold badgeCount
  rcases bt with _ | b
  · simp
  · dsimp only
    by_cases hbe : b.isEmpty = true
    · simp [hbe]
    · simp only [hbe, if_false]
      rcases hp : parseIntDec (stripNonDigits b) with _ | n
      · simp
      · simpa using parseIntDec_nonneg hp

lemma legacyItemCount_nonneg (r : Json) (ct : Json)
    (h : hasNumericVideoCount r = false) : 0 ≤ (legacyItemCount r ct).getD 0 := by
  unfold hasNumericVideoCount at h
  unfold legacyItemCount
  have hparse : ∀ s : JSStr, 0 ≤ (parseIntDec s).getD 0 := by
    intro s
    rcases hp : parseIntDec s with _ | n
    · simp
    · simpa using parseIntDec_nonneg hp
  rcases hv : getField r "videoCount" with _ | v
  · exact hparse _
  · rw [hv] at h
    cases v with
    | num n => simp at h
    | obj fs => exact hparse _
    | arr es => exact hparse _
    | str s => exact hparse _
    | bool b => exact hparse _
    | null => exact hparse _

/-- C5 (amended): conversion returns no record exactly when no playlist id
is resolvable; any returned `Playlist` has a non-empty id and all fields
populated with their fallback defaults, with `itemCount` a non-negative
integer (0 when unparseable) except when the renderer carries a numeric
`videoCount` field, which the code passes through unchecked; and conversion
throws exactly when the lockup path is taken and one of the
`metadataRows` / `metadataParts` / `overlays` values survives `?? []` as a
truthy non-array, in which case the thrown error is the `TypeError` of
calling `.map` on a non-array. -/
theorem c5_amended_conversion_invariants (r : Json) :
    (convertRendererToPlaylist r = .ok none ↔ resolvedId r = none) ∧
    (∀ p, convertRendererToPlaylist r = .ok (some p) →
      p.id ≠ [] ∧ (hasNumericVideoCount r = false → 0 ≤ p.itemCount)) ∧
    (∀ e, convertRendererToPlaylist r = .error e →
      e = .typeError ∧ lockupGate r = true ∧ lockupArraysBad r = true) ∧
    (lockupGate r = true → resolvedId r ≠ none → lockupArraysBad r = true →
      convertRendererToPlaylist r = .error .typeError) := by
  by_cases hg : lockupGate r
  · have hres : resolvedId r = (extractPlaylistId r).orElse
        (fun _ => ((getField r "lockupViewModel").map extractPlaylistId).getD none) := by
      unfold resolvedId
      rw [if_pos hg]
    have hconv : convertRendererToPlaylist r = convertLockupPlaylist r := by
      unfold convertRendererToPlaylist
      rw [if_pos hg]
    refine ⟨?_, ?_, ?_, ?_⟩
    · rw [hconv, hres]
      unfold convertLockupPlaylist
      split
      · rename_i heq
        simp [heq]
      · rename_i pid heq
        constructor
        · intro hc
          rcases h1 : jsArray? (metadataRowsVal r) with e1 | rows
          · simp [h1] at hc
          · rcases h2 : flattenRowsE rows with e2 | raw
            · simp [h1, h2] at hc
            · rcases h3 : jsArray? (overlaysVal r) with e3 | ov
              · simp [h1, h2, h3] at hc
              · simp [h1, h2, h3] at hc
        · intro hc
          rw [heq] at hc
          cases hc
    · intro p hp
      rw [hconv] at hp
      unfold convertLockupPlaylist at hp
      split at hp
      · simp at hp
      · rename_i pid heq
        have hpid : resolvedId r = some pid := by
          rw [hres]
          exact heq
        rcases h1 : jsArray? (metadataRowsVal r) with e1 | rows
        · simp [h1] at hp
        · rcases h2 : flattenRowsE rows with e2 | raw
          · simp [h1, h2] at hp
          · rcases h3 : jsArray? (overlaysVal r) with e3 | ov
            · simp [h1, h2, h3] at hp
            · simp only [h1, h2, h3] at hp
              injection hp with hp1
              injection hp1 with hp2
              subst hp2
              exact ⟨resolvedId_ne_nil hpid, fun _ => badgeCount_nonneg _⟩
    · intro e he
      rw [hconv] at he
      unfold convertLockupPlaylist at he
      split at he
      · cases he
      · rename_i pid heq
        rcases h1 : jsArray? (metadataRowsVal r) with e1 | rows
        · simp only [h1] at he
          obtain ⟨he1, hbad⟩ := (jsArray?_error_iff _ _).mp h1
          subst he1
          injection he with he'
          subst he'
          exact ⟨rfl, hg, by simp [lockupArraysBad, hbad]⟩
        · rcases h2 : flattenRowsE rows with e2 | raw
          · simp only [h1, h2] at he
            obtain ⟨he2, hany⟩ := (flattenRowsE_error_iff _ _).mp h2
            subst he2
            injection he with he'
            subst he'
            refine ⟨rfl, hg, ?_⟩
            simp [lockupArraysBad, h1, hany]
          · rcases h3 : jsArray? (overlaysVal r) with e3 | ov
            · simp only [h1, h2, h3] at he
              obtain ⟨he3, hbad⟩ := (jsArray?_error_iff _ _).mp h3
              subst he3
              injection he with he'
              subst he'
              refine ⟨rfl, hg, ?_⟩
              simp [lockupArraysBad, hbad]
            · simp only [h1, h2, h3] at he
              cases he
    · intro _ hid hbad
      rw [hconv]
      unfold convertLockupPlaylist
      rcases hidv : (extractPlaylistId r).orElse
          (fun _ => ((getField r "lockupViewModel").map extractPlaylistId).getD none)
        with _ | pid
      · exact absurd (hres.trans hidv) hid
      · simp only [hidv]
        by_cases hb1 : badArrayVal (metadataRowsVal r) = true
        · simp [jsArray?_error_of_bad hb1]
        · simp only [Bool.not_eq_true] at hb1
          obtain ⟨rows, h1⟩ := jsArray?_ok_of_not_bad hb1
          by_cases hany : rows.any
              (fun row => badArrayVal (oField (some row) "metadataParts")) = true
          · have h2 := (flattenRowsE_error_iff rows .typeError).mpr ⟨rfl, hany⟩
            simp [h1, h2]
          · simp only [Bool.not_eq_true] at hany
            have hb3 : badArrayVal (overlaysVal r) = true := by
              unfold lockupArraysBad at hbad
              rw [h1] at hbad
              simp [hb1, hany] at hbad
              exact hbad
            rcases hfl : flattenRowsE rows with e2 | raw
            · obtain ⟨he2, _⟩ := (flattenRowsE_error_iff _ _).mp hfl
              subst he2
              simp [h1, hfl]
            · simp [h1, hfl, jsArray?_error_of_bad hb3]
  · have hres : resolvedId r = extractPlaylistId r := by
      unfold resolvedId
      rw [if_neg hg]
    refine ⟨?_, ?_, ?_, ?_⟩
    · rw [hres]
      unfold convertRendererToPlaylist
      rw [if_neg hg]
      split
      · rename_i heq
        simp [heq]
      · rename_i pid heq
        simp [heq]
    · intro p hp
      unfold convertRendererToPlaylist at hp
      rw [if_neg hg] at hp
      injection hp with hp'
      split at hp'
      · cases hp'
      · rename_i pid heq
        injection hp' with hrec
        subst hrec
        exact ⟨extractPlaylistId_ne_nil heq, fun hnum => legacyItemCount_nonneg r _ hnum⟩
    · intro e he
      unfold convertRendererToPlaylist at he
      rw [if_neg hg] at he
      cases he
    · intro hg' _ _
      exact absurd hg' hg

/-- Witness for C5: at a legacy renderer whose count text carries no digits,
the record is produced with non-empty id and `itemCount` 0 (the unparseable
fallback); and at a lockup renderer whose `overlays` value is the number 5,
conversion throws the `TypeError`. -/
theorem c5_amended_conversion_invariants_witness :
    (convertRendererToPlaylist (.obj
        [("playlistId", .str (jstr "PLw5")),
         ("videoCountText", .str (jstr "no digits"))]) = .ok none ↔
      resolvedId (.obj
        [("playlistId", .str (jstr "PLw5")),
         ("videoCountText", .str (jstr "no digits"))]) = none) ∧
    ((jstr "PLw5") ≠ [] ∧
      (hasNumericVideoCount (.obj
        [("playlistId", .str (jstr "PLw5")),
         ("videoCountText", .str (jstr "no digits"))]) = false → (0 : Int) ≤ 0)) ∧
    convertRendererToPlaylist (.obj
      [("lockupViewModel", .obj
        [("contentId", .str (jstr "PLw6")),
         ("metadata", .obj [("lockupMetadataViewModel", .obj [])]),
         ("contentImage", .obj [("collectionThumbnailViewModel", .obj
           [("primaryThumbnail", .obj [("thumbnailViewModel", .obj
             [("overlays", .num 5)])])])])])]) = .error .typeError := by
  refine ⟨(c5_amended_conversion_invariants _).1, ?_, ?_⟩
  · exact (c5_amended_conversion_invariants (.obj
      [("playlistId", .str (jstr "PLw5")),
       ("videoCountText", .str (jstr "no digits"))])).2.1
      { id := jstr "PLw5", title := jstr "Untitled playlist", description := [],
        privacyStatus := jstr "unknown", itemCount := 0,
        channelTitle := jstr "Unknown channel", updatedAt := [],
        thumbnailUrl := none }
      (by decide)
  · exact (c5_amended_conversion_invariants _).2.2.2 (by decide) (by decide) (by decide)

/-! ### C6: internal list de-duplicates by id, first occurrence wins -/

-- The extractor model finds a renderer nested under a wrapper field and the
-- continuation token of a continuation item.
example :
    parseBrowseResponse (.obj
      [("contents", .obj
        [("playlistRenderer", .obj
          [("playlistId", .str (jstr "PL1")),
           ("title", .obj [("simpleText", .str (jstr "A"))])])]),
       ("continuationItemRenderer", .obj
        [("continuationEndpoint", .obj
          [("continuationCommand", .obj [("token", .str (jstr "TOK2"))])])])]) =
    .ok ([{ id := jstr "PL1", title := jstr "A", description := [],
            privacyStatus := jstr "unknown", itemCount := 0,
            channelTitle := jstr "Unknown channel", updatedAt := [],
            thumbnailUrl := none }], some (jstr "TOK2")) := by
  decide

lemma dedupAppend_eq :
    ∀ (items acc : List Playlist) (seen : List JSStr),
      dedupAppend items acc seen =
        (acc ++ dedupFirstFrom seen items,
         seen ++ (dedupFirstFrom seen items).map (·.id)) := by
  intro items
  induction items with
  | nil => intro acc seen; simp [dedupAppend, dedupFirstFrom]
  | cons p rest ih =>
    intro acc seen
    by_cases hmem : p.id ∈ seen
    · simp only [dedupAppend, dedupFirstFrom, if_pos hmem]
      exact ih acc seen
    · simp only [dedupAppend, dedupFirstFrom, if_neg hmem]
      rw [ih (acc ++ [p]) (seen ++ [p.id])]
      simp

lemma dedupFirstFrom_append :
    ∀ (a b : List Playlist) (seen : List JSStr),
      dedupFirstFrom seen (a ++ b) =
        dedupFirstFrom seen a ++
          dedupFirstFrom (seen ++ (dedupFirstFrom seen a).map (·.id)) b := by
  intro a
  induction a with
  | nil => intro b seen; simp [dedupFirstFrom]
  | cons p rest ih =>
    intro b seen
    by_cases hmem : p.id ∈ seen
    · simp only [List.cons_append, dedupFirstFrom, if_pos hmem]
      exact ih b seen
    · simp only [List.cons_append, dedupFirstFrom, if_neg hmem, List.append_eq]
      rw [ih b (seen ++ [p.id])]
      simp

lemma innerTubeGo_raw :
    ∀ (o : InnOracle) (h : HeaderMap) (fuel : Nat) (cont : Option JSStr)
      (acc : List Playlist) (seen : List JSStr) (tr tr' : List CallEvent)
      (res : List Playlist),
      fetchPlaylistsInnerTubeGo o h fuel cont acc seen tr = (some (.ok res), tr') →
      ∀ racc, ∃ raw,
        fetchPlaylistsInnerTubeRawGo o h fuel cont racc tr = (some (.ok (racc ++ raw)), tr') ∧
        res = acc ++ dedupFirstFrom seen raw := by
  intro o h fuel
  induction fuel with
  | zero =>
    intro cont acc seen tr tr' res hrun racc
    simp [fetchPlaylistsInnerTubeGo] at hrun
  | succ n ih =>
    intro cont acc seen tr tr' res hrun racc
    rw [fetchPlaylistsInnerTubeGo] at hrun
    cases ho : o h cont with
    | error e =>
      rw [ho] at hrun
      simp at hrun
    | ok data =>
      rw [ho] at hrun
      simp only at hrun
      cases hpr : parseBrowseResponse data with
      | error e =>
        rw [hpr] at hrun
        simp only [Prod.mk.injEq, Option.some.injEq] at hrun
        cases hrun.1
      | ok parsed =>
        rw [hpr] at hrun
        simp only at hrun
        rw [dedupAppend_eq] at hrun
        cases hparsed : parsed.2 with
        | none =>
          rw [hparsed] at hrun
          simp only [Prod.mk.injEq, Option.some.injEq, Except.ok.injEq] at hrun
          refine ⟨parsed.1, ?_, ?_⟩
          · rw [fetchPlaylistsInnerTubeRawGo, ho]
            simp only [hpr, hparsed]
            rw [hrun.2]
          · rw [← hrun.1]
        | some t =>
          rw [hparsed] at hrun
          obtain ⟨raw', hraw', hres'⟩ :=
            ih (some t) (acc ++ dedupFirstFrom seen parsed.1)
              (seen ++ (dedupFirstFrom seen parsed.1).map (·.id))
              (tr ++ [.innBrowse h cont]) tr' res hrun (racc ++ parsed.1)
          refine ⟨parsed.1 ++ raw', ?_, ?_⟩
          · rw [fetchPlaylistsInnerTubeRawGo, ho]
            simp only [hpr, hparsed]
            rw [hraw']
            simp
          · rw [hres', dedupFirstFrom_append]
            simp

lemma dedupFirstFrom_nodup :
    ∀ (l : List Playlist) (seen : List JSStr),
      ((dedupFirstFrom seen l).map (·.id)).Nodup ∧
      ∀ x ∈ (dedupFirstFrom seen l).map (·.id), x ∉ seen := by
  intro l
  induction l with
  | nil => intro seen; simp [dedupFirstFrom]
  | cons p rest ih =>
    intro seen
    by_cases hmem : p.id ∈ seen
    · simp only [dedupFirstFrom, if_pos hmem]
      exact ih seen
    · simp only [dedupFirstFrom, if_neg hmem, List.map_cons, List.nodup_cons]
      obtain ⟨hnd, hnotin⟩ := ih (seen ++ [p.id])
      refine ⟨⟨?_, hnd⟩, ?_⟩
      · intro hc
        have := hnotin _ hc
        simp at this
      · intro x hx
        simp only [List.mem_cons] at hx
        rcases hx with rfl | hx
        · exact hmem
        · intro hc
          exact hnotin x hx (by simp [hc])

/-- C6: whenever the internal list loop completes successfully, its result is
exactly the first-occurrence-wins id-deduplication of all records discovered
across the fetched pages (in discovery order), and in particular the returned
ids are pairwise distinct. -/
theorem c6_innertube_dedup_first_wins (o : InnOracle) (h : HeaderMap) (fuel : Nat)
    (tr tr' : List CallEvent) (res : List Playlist)
    (hrun : fetchPlaylistsInnerTube o h fuel tr = (some (.ok res), tr')) :
    ∃ raw, fetchPlaylistsInnerTubeRaw o h fuel tr = (some (.ok raw), tr') ∧
      res = dedupFirst raw ∧ (res.map (·.id)).Nodup := by
  obtain ⟨raw, hraw, hres⟩ :=
    innerTubeGo_raw o h fuel none [] [] tr tr' res hrun []
  refine ⟨raw, ?_, ?_, ?_⟩
  · simpa [fetchPlaylistsInnerTubeRaw] using hraw
  · simpa [dedupFirst] using hres
  · rw [hres]
    simpa [dedupFirst] using (dedupFirstFrom_nodup raw []).1

/-- Witness for C6: two synthetic pages both carrying a renderer with id
`PL1` yield exactly one `Playlist` with id `PL1` (the first one). -/
theorem c6_innertube_dedup_first_wins_witness :
    ∃ raw,
      fetchPlaylistsInnerTubeRaw browseOracle [] 2 [] =
        (some (.ok raw),
         [.innBrowse [] none, .innBrowse [] (some (jstr "TOK2"))]) ∧
      [{ id := jstr "PL1", title := jstr "A", description := [],
         privacyStatus := jstr "unknown", itemCount := 0,
         channelTitle := jstr "Unknown channel", updatedAt := [],
         thumbnailUrl := none }] = dedupFirst raw ∧
      (([{ id := jstr "PL1", title := jstr "A", description := [],
           privacyStatus := jstr "unknown", itemCount := 0,
           channelTitle := jstr "Unknown channel", updatedAt := [],
           thumbnailUrl := none }] : List Playlist).map (·.id)).Nodup :=
  c6_innertube_dedup_first_wins browseOracle [] 2 []
    [.innBrowse [] none, .innBrowse [] (some (jstr "TOK2"))]
    [{ id := jstr "PL1", title := jstr "A", description := [],
       privacyStatus := jstr "unknown", itemCount := 0,
       channelTitle := jstr "Unknown channel", updatedAt := [],
       thumbnailUrl := none }]
    (by decide)

/-! ### C3: one-shot cross-backend fallback on official 401/403 -/

/-- C3: when the Authorization selects the official backend, a list
(respectively delete) failure surfacing as a `YouTubeApiError` with status
401/403 causes exactly one retry against the internal backend with the same
prepared headers, whose result is returned to the caller; any other error
propagates with no internal request. -/
theorem c3_official_auth_failure_fallback
    (off : OffPageOracle) (inn : InnOracle) (offD : OffDeleteOracle)
    (innD : InnDeleteOracle) (raw : HeaderMap) (prepared : PreparedHeaders)
    (hprep : prepareHeaders raw = .ok prepared)
    (hofficial : shouldUseInnerTube prepared.normalized = false) :
    (∀ fuelO fuelI e trO,
      fetchPlaylistsDataApi off prepared.headers fuelO [] = (some (.error e), trO) →
      (isAuthFailure e = true →
        fetchAllPlaylists off inn raw fuelO fuelI =
          fetchPlaylistsInnerTube inn prepared.headers fuelI trO) ∧
      (isAuthFailure e = false →
        fetchAllPlaylists off inn raw fuelO fuelI = (some (.error e), trO))) ∧
    (∀ pid e,
      offD prepared.headers pid = .error e →
      (isAuthFailure e = true →
        deletePlaylist offD innD pid raw =
          (innD prepared.headers pid,
           [.offDelete prepared.headers pid, .innDelete prepared.headers pid])) ∧
      (isAuthFailure e = false →
        deletePlaylist offD innD pid raw =
          (.error e, [.offDelete prepared.headers pid]))) := by
  constructor
  · intro fuelO fuelI e trO hrun
    constructor
    · intro hauth
      simp only [fetchAllPlaylists, hprep, hofficial, Bool.false_eq_true, if_false, hrun,
        hauth, if_true]
    · intro hauth
      simp only [fetchAllPlaylists, hprep, hofficial, Bool.false_eq_true, if_false, hrun,
        hauth]
  · intro pid e hdel
    constructor
    · intro hauth
      simp only [deletePlaylist, hprep, hofficial, Bool.false_eq_true, if_false, hdel,
        hauth, if_true]
    · intro hauth
      simp only [deletePlaylist, hprep, hofficial, Bool.false_eq_true, if_false, hdel,
        hauth]

/-- Witness for C3: a scripted 403 official responder makes the list call
return the internal run's result (one internal request, same prepared
headers); a scripted 401 official delete makes the delete call return the
internal delete's result. -/
theorem c3_official_auth_failure_fallback_witness :
    (fetchAllPlaylists off403 innEmpty bearerRaw 1 1 =
      fetchPlaylistsInnerTube innEmpty bearerPrepared.headers 1
        [.offPage bearerPrepared.headers none]) ∧
    (deletePlaylist offDel401 innDelOk (jstr "PLx") bearerRaw =
      (innDelOk bearerPrepared.headers (jstr "PLx"),
       [.offDelete bearerPrepared.headers (jstr "PLx"),
        .innDelete bearerPrepared.headers (jstr "PLx")])) := by
  have h := c3_official_auth_failure_fallback off403 innEmpty offDel401 innDelOk
    bearerRaw bearerPrepared (by decide) (by decide)
  exact ⟨(h.1 1 1 (.api 403) [.offPage bearerPrepared.headers none] (by decide)).1 (by decide),
         (h.2 (jstr "PLx") (.api 401) (by decide)).1 (by decide)⟩

/-! ### C4: the fallback is per top-level call, and fires even mid-pagination -/

/-- C4 counterexample: with an official responder whose second page fails
with HTTP 401, the list call does NOT surface an `UpstreamError` — it falls
back to the internal backend (an internal browse request appears in the
trace) and returns the internal result. -/
theorem c4_counterexample_mid_pagination_falls_back :
    fetchAllPlaylists offMid401 innEmpty bearerRaw 2 1 =
      (some (.ok []),
       [.offPage bearerPrepared.headers none,
        .offPage bearerPrepared.headers (some (jstr "TOKB")),
        .innBrowse bearerPrepared.headers none]) ∧
    CallEvent.innBrowse bearerPrepared.headers none ∈
      (fetchAllPlaylists offMid401 innEmpty bearerRaw 2 1).2 ∧
    (fetchAllPlaylists offMid401 innEmpty bearerRaw 2 1).1 ≠
      some (.error (.api 401)) := by
  refine ⟨by decide, by decide, by decide⟩

/-- C4 (amended): the one-shot cross-backend fallback catches a 401/403 from
ANY page of the official pagination, including pages after the first: the
whole list call is retried once on the internal backend (restarting from the
beginning of its feed), and the internal run's result is returned instead of
an `UpstreamError`. -/
theorem c4_amended_mid_pagination_triggers_fallback
    (off : OffPageOracle) (inn : InnOracle) (raw : HeaderMap)
    (prepared : PreparedHeaders)
    (hprep : prepareHeaders raw = .ok prepared)
    (hofficial : shouldUseInnerTube prepared.normalized = false)
    (fuelO fuelI s : Nat) (trO : List CallEvent)
    (hrun : fetchPlaylistsDataApi off prepared.headers fuelO [] =
      (some (.error (.api s)), trO))
    (hmid : 2 ≤ trO.length)
    (hs : s = 401 ∨ s = 403) :
    fetchAllPlaylists off inn raw fuelO fuelI =
      fetchPlaylistsInnerTube inn prepared.headers fuelI trO := by
  have hauth : isAuthFailure (.api s) = true := by
    rcases hs with rfl | rfl <;> decide
  simp only [fetchAllPlaylists, hprep, hofficial, Bool.false_eq_true, if_false, hrun,
    hauth, if_true]

/-- Witness for the amended C4 at the two-page 401 scenario. -/
theorem c4_amended_mid_pagination_triggers_fallback_witness :
    fetchAllPlaylists offMid401 innEmpty bearerRaw 2 1 =
      fetchPlaylistsInnerTube innEmpty bearerPrepared.headers 1
        [.offPage bearerPrepared.headers none,
         .offPage bearerPrepared.headers (some (jstr "TOKB"))] :=
  c4_amended_mid_pagination_triggers_fallback offMid401 innEmpty bearerRaw
    bearerPrepared (by decide) (by decide) 2 1 401
    [.offPage bearerPrepared.headers none,
     .offPage bearerPrepared.headers (some (jstr "TOKB"))]
    (by decide) (by decide) (Or.inl rfl)

/-! ### C7: cycle-protected traversal terminates -/

lemma bounded_nodup_length {v : List Nat} {L : Nat}
    (hnd : v.Nodup) (hb : ∀ j ∈ v, j < L) : v.length ≤ L := by
  classical
  have hsub : v.toFinset ⊆ Finset.range L := by
    intro x hx
    simp only [List.mem_toFinset] at hx
    simp only [Finset.mem_range]
    exact hb x hx
  have hcard := Finset.card_le_card hsub
  rwa [List.toFinset_card_of_nodup hnd, Finset.card_range] at hcard

lemma foldl_dfs_none (g : Graph) (fuel : Nat) (cs : List Nat) :
    cs.foldl (fun ost c => ost.bind (fun s => dfsG g fuel c s)) none = none := by
  induction cs with
  | nil => rfl
  | cons c cs ih => simpa using ih

lemma dfsChildren_nil (g : Graph) (fuel : Nat) (st : DfsState) :
    dfsChildren g fuel [] st = some st := rfl

lemma dfsChildren_cons (g : Graph) (fuel : Nat) (c : Nat) (cs : List Nat)
    (st : DfsState) :
    dfsChildren g fuel (c :: cs) st =
      match dfsG g fuel c st with
      | none => none
      | some st1 => dfsChildren g fuel cs st1 := by
  unfold dfsChildren
  simp only [List.foldl_cons, Option.some_bind]
  cases h : dfsG g fuel c st
  · simp [foldl_dfs_none]
  · rfl

lemma dfsG_succ (g : Graph) (fuel i : Nat) (st : DfsState) :
    dfsG g (fuel + 1) i st =
      match g.get? i with
      | none => some st
      | some node =>
        if i ∈ st.visited then some st
        else
          dfsChildren g fuel node.children
            ⟨st.visited ++ [i], st.found ++ node.renderer.toList⟩ := rfl

lemma dfs_fuel_sufficient (g : Graph) :
    ∀ n : Nat,
      (∀ (i : Nat) (st : DfsState),
        st.visited.Nodup → (∀ j ∈ st.visited, j < g.length) →
        g.length - st.visited.length < n →
        ∃ st', dfsG g n i st = some st' ∧ st'.visited.Nodup ∧
          (∀ j ∈ st'.visited, j < g.length) ∧ st.visited <+: st'.visited) ∧
      (∀ (cs : List Nat) (st : DfsState),
        st.visited.Nodup → (∀ j ∈ st.visited, j < g.length) →
        g.length - st.visited.length < n →
        ∃ st', dfsChildren g n cs st = some st' ∧ st'.visited.Nodup ∧
          (∀ j ∈ st'.visited, j < g.length) ∧ st.visited <+: st'.visited) := by
  intro n
  induction n using Nat.strong_induction_on with
  | _ n ih =>
    have hL : ∀ (i : Nat) (st : DfsState),
        st.visited.Nodup → (∀ j ∈ st.visited, j < g.length) →
        g.length - st.visited.length < n →
        ∃ st', dfsG g n i st = some st' ∧ st'.visited.Nodup ∧
          (∀ j ∈ st'.visited, j < g.length) ∧ st.visited <+: st'.visited := by
      intro i st hnd hb hfuel
      cases n with
      | zero => exact absurd hfuel (Nat.not_lt_zero _)
      | succ m =>
        rw [dfsG_succ]
        cases hg : g.get? i with
        | none => exact ⟨st, rfl, hnd, hb, List.prefix_refl _⟩
        | some node =>
          dsimp only
          by_cases hmem : i ∈ st.visited
          · rw [if_pos hmem]
            exact ⟨st, rfl, hnd, hb, List.prefix_refl _⟩
          · rw [if_neg hmem]
            have hi : i < g.length := by
              rcases List.get?_eq_some.mp hg with ⟨hlt, _⟩
              exact hlt
            have hnd1 : (st.visited ++ [i]).Nodup := by
              simp [List.nodup_append, hnd, hmem]
            have hb1 : ∀ j ∈ st.visited ++ [i], j < g.length := by
              intro j hj
              rcases List.mem_append.mp hj with hj | hj
              · exact hb j hj
              · simp at hj
                subst hj
                exact hi
            have hle : (st.visited ++ [i]).length ≤ g.length :=
              bounded_nodup_length hnd1 hb1
            simp only [List.length_append, List.length_singleton] at hle
            obtain ⟨st', hrun, hnd', hb', hpre'⟩ :=
              (ih m (Nat.lt_succ_self m)).2 node.children
                ⟨st.visited ++ [i], st.found ++ node.renderer.toList⟩
                hnd1 hb1 (by simp only [List.length_append, List.length_singleton]; omega)
            refine ⟨st', hrun, hnd', hb', ?_⟩
            exact (List.prefix_append st.visited [i]).trans hpre'
    have hM : ∀ (cs : List Nat) (st : DfsState),
        st.visited.Nodup → (∀ j ∈ st.visited, j < g.length) →
        g.length - st.visited.length < n →
        ∃ st', dfsChildren g n cs st = some st' ∧ st'.visited.Nodup ∧
          (∀ j ∈ st'.visited, j < g.length) ∧ st.visited <+: st'.visited := by
      intro cs
      induction cs with
      | nil =>
        intro st hnd hb _
        rw [dfsChildren_nil]
        exact ⟨st, rfl, hnd, hb, List.prefix_refl _⟩
      | cons c cs ihcs =>
        intro st hnd hb hfuel
        obtain ⟨st1, hst1, hnd1, hb1, hpre1⟩ := hL c st hnd hb hfuel
        have hlen1 : st.visited.length ≤ st1.visited.length := hpre1.length_le
        obtain ⟨st2, hst2, hnd2, hb2, hpre2⟩ := ihcs st1 hnd1 hb1 (by omega)
        refine ⟨st2, ?_, hnd2, hb2, hpre1.trans hpre2⟩
        rw [dfsChildren_cons, hst1]
        exact hst2
    exact ⟨hL, hM⟩

/-- C7: for every response object graph — including graphs in which a
descendant points back to an ancestor (a cycle), or in which sub-objects are
shared — the visited-identity tracking makes the depth-first walk terminate
within a store-sized call depth, visiting no identity twice, and it returns
the conversion outcome of the renderers it found; on the concrete cyclic
fixture the walk completes and returns the one record reachable before the
cycle closes. -/
theorem c7_walk_terminates_on_cyclic_graphs :
    (∀ (g : Graph) (root : Nat), ∃ items visited,
      parseBrowseGraph g root = some (items, visited) ∧ visited.Nodup) ∧
    parseBrowseGraph cyclicGraph 0 =
      some (.ok [{ id := jstr "PL7", title := jstr "Untitled playlist",
                   description := [], privacyStatus := jstr "unknown",
                   itemCount := 0, channelTitle := jstr "Unknown channel",
                   updatedAt := [], thumbnailUrl := none }], [0, 1]) := by
  constructor
  · intro g root
    obtain ⟨st', hrun, hnd, _, _⟩ :=
      (dfs_fuel_sufficient g (g.length + 1)).1 root ⟨[], []⟩ (by simp) (by simp)
        (by omega)
    refine ⟨convertAll st'.found, st'.visited, ?_, hnd⟩
    simp [parseBrowseGraph, hrun]
  · decide
